import Mathlib

/-!
# PKI issuance (`pkg/helpers/pki.go`)

A shallow embedding of the certificate-issuance code of `pkg/helpers/pki.go`:
the template construction and signing of `createCertificate`, the PEM helpers
`certificateToPem`, `privateKeyToPem`, `pemToCertificate`, `pemToKey`, and the
two entry points `CreatePkiKeyCertPair` and `CreatePki`.

The Go standard library (`encoding/pem`, `crypto/x509`, `crypto/rsa`,
`crypto/rand`, `time`) is not part of the package.  Its calls are taken as
parameters: `Lib` holds the deterministic library functions, `Ambient` holds
what one call of `createCertificate` reads from the clock and from the random
source.  Go pointers that may be `nil` are `Option`s, a Go run-time panic
(nil dereference, `make` with a negative length) is the outcome `panicked`.
-/

namespace Pki

/-! ## Data model -/

/-- Go `error` values, identified by their message. -/
abbrev Error := String

/-- Go `[]byte`. -/
abbrev Bytes := List Nat

/-- Go `net.IP`. -/
abbrev IP := List Nat

/-- What a Go call does: it returns a value, or the goroutine panics. -/
inductive Outcome (α : Type) where
  | returned (a : α)
  | panicked
  deriving DecidableEq, Repr

/-- The extended key usages of `crypto/x509` that the package uses. -/
inductive ExtKeyUsage where
  | ExtKeyUsageServerAuth
  | ExtKeyUsageClientAuth
  deriving DecidableEq, Repr

open ExtKeyUsage

/-- The constant `x509.KeyUsageDigitalSignature` (`1 << 0`). -/
def KeyUsageDigitalSignature : Nat := 1

/-- The constant `x509.KeyUsageKeyEncipherment` (`1 << 2`). -/
def KeyUsageKeyEncipherment : Nat := 4

/-- The constant `x509.KeyUsageCertSign` (`1 << 5`). -/
def KeyUsageCertSign : Nat := 32

/-- The constant `ValidityDuration`: `time.Hour * 24 * 365 * 30`, in nanoseconds. -/
def ValidityDuration : Nat := 3600000000000 * 24 * 365 * 30

/-- The constant `DefaultPkiKeySize`. -/
def DefaultPkiKeySize : Int := 4096

/-- Go `rsa.PublicKey`. -/
structure PublicKey where
  N : Nat
  E : Nat
  deriving DecidableEq, Repr

/-- Go `rsa.PrivateKey`. -/
structure PrivateKey where
  PublicKey : PublicKey
  D : Nat
  Primes : List Nat
  deriving DecidableEq, Repr

/-- Go `pkix.Name`, with the two fields the package sets. -/
structure Name where
  CommonName : String := ""
  Organization : List String := []
  deriving DecidableEq, Repr

/-- Go `x509.Certificate`, with the fields the package sets or reads.  The
defaults are Go zero values, so a struct literal that names some fields leaves
the others as Go does. -/
structure Certificate where
  Raw : Bytes := []
  SerialNumber : Option Nat := none
  Subject : Name := {}
  NotBefore : Nat := 0
  NotAfter : Nat := 0
  KeyUsage : Nat := 0
  ExtKeyUsage : List ExtKeyUsage := []
  BasicConstraintsValid : Bool := false
  IsCA : Bool := false
  DNSNames : List String := []
  IPAddresses : List IP := []
  PublicKey : Option PublicKey := none
  deriving DecidableEq, Repr

/-- Go `pem.Block` (the package never sets headers); `Type_` is its field `Type`. -/
structure PemBlock where
  Type_ : String
  Bytes : Bytes
  deriving DecidableEq, Repr

/-- The struct `PkiKeyCertPair`. -/
structure PkiKeyCertPair where
  CertificatePem : String
  PrivateKeyPem : String
  deriving DecidableEq, Repr

/-- The struct `PkiKeyCertPairOptions`. -/
structure PkiKeyCertPairOptions where
  CommonName : String
  KeySize : Int
  deriving DecidableEq, Repr

/-- The struct `PkiOptions`; `CaPair` is a pointer. -/
structure PkiOptions where
  ExtraFQDNs : List String
  ExtraIPs : List IP
  ClusterDomain : String
  CaPair : Option PkiKeyCertPair
  MasterCount : Int
  PkiKeySize : Int
  deriving DecidableEq, Repr

/-- The struct `certOptions`; the two CA fields are pointers, and
`organization` is a slice that the code compares with `nil`. -/
structure certOptions where
  commonName : String
  caCertificate : Option Certificate
  caPrivateKey : Option PrivateKey
  isEtcd : Bool
  isServer : Bool
  extraFQDNs : List String
  extraIPs : List IP
  organization : Option (List String)
  keySize : Int
  deriving DecidableEq, Repr

/-! ## The standard library, as parameters -/

/-- The deterministic standard-library functions the package calls. -/
structure Lib where
  /-- The text `pem.Encode` writes for a block. -/
  pemEncode : PemBlock → String
  /-- The function `pem.Decode`: the first block found (or `nil`) and the rest of the input. -/
  pemDecode : String → Option PemBlock × String
  /-- The function `x509.ParseCertificate`. -/
  parseCertificate : Bytes → Except Error Certificate
  /-- The function `x509.MarshalPKCS1PrivateKey`. -/
  marshalPKCS1PrivateKey : PrivateKey → Bytes
  /-- The function `x509.ParsePKCS1PrivateKey`. -/
  parsePKCS1PrivateKey : Bytes → Except Error PrivateKey
  /-- The function `x509.CreateCertificate` on template, parent, subject public key and
  signer; the signer is not `nil`. -/
  x509CreateCertificate : Certificate → Certificate → PublicKey → PrivateKey → Except Error Bytes

/-- What one call of `createCertificate` reads from the clock and the random source. -/
structure Ambient where
  /-- The reading of `time.Now()`. -/
  now : Nat
  /-- The result of `rand.Int(rand.Reader, max)`. -/
  randInt : Nat → Except Error Nat
  /-- The result of `rsa.GenerateKey(rand.Reader, bits)`. -/
  generateKey : Int → Except Error PrivateKey

/-! ## `createCertificate` -/

/-- What `createCertificate` returns: `(*x509.Certificate, *rsa.PrivateKey, error)`. -/
structure CertResult where
  certificate : Option Certificate
  privateKey : Option PrivateKey
  err : Option Error
  deriving DecidableEq, Repr

/-- The template `createCertificate` has built when it reaches the serial-number
draw: the struct literal, the organization, and the branch on the role. -/
def createCertificate.template (options : certOptions) (now : Nat) : Certificate :=
  let isCA := options.caCertificate.isNone
  let template : Certificate :=
    { Subject := { CommonName := options.commonName }
      NotBefore := now
      NotAfter := now + ValidityDuration
      KeyUsage := KeyUsageKeyEncipherment ||| KeyUsageDigitalSignature
      BasicConstraintsValid := true }
  let template : Certificate :=
    match options.organization with
    | some organization =>
      { template with Subject := { template.Subject with Organization := organization } }
    | none => template
  if isCA then
    { template with
      KeyUsage := template.KeyUsage ||| KeyUsageCertSign
      IsCA := isCA }
  else if options.isEtcd then
    if options.commonName = "etcdServer" then
      { template with
        IPAddresses := options.extraIPs
        ExtKeyUsage := template.ExtKeyUsage ++ [ExtKeyUsageServerAuth] }
    else if options.commonName = "etcdClient" then
      { template with
        IPAddresses := options.extraIPs
        ExtKeyUsage := template.ExtKeyUsage ++ [ExtKeyUsageClientAuth] }
    else
      { template with
        IPAddresses := options.extraIPs
        ExtKeyUsage := (template.ExtKeyUsage ++ [ExtKeyUsageServerAuth]) ++ [ExtKeyUsageClientAuth] }
  else if options.isServer then
    { template with
      DNSNames := options.extraFQDNs
      IPAddresses := options.extraIPs
      ExtKeyUsage := template.ExtKeyUsage ++ [ExtKeyUsageServerAuth] }
  else
    { template with
      ExtKeyUsage := template.ExtKeyUsage ++ [ExtKeyUsageClientAuth] }

/-- The bound `snMax` of the serial-number draw: `1 << 128`. -/
def snMax : Nat := 1 <<< 128

/-- The function `createCertificate`. -/
def createCertificate (lib : Lib) (amb : Ambient) (options : certOptions) : Outcome CertResult :=
  let template := createCertificate.template options amb.now
  match amb.randInt snMax with
  | .error err => .returned ⟨none, none, some err⟩
  | .ok serialNumber =>
    let template := { template with SerialNumber := some serialNumber }
    -- `privateKey, _ := rsa.GenerateKey(...)`: the error is dropped
    let privateKey : Option PrivateKey := (amb.generateKey options.keySize).toOption
    -- `if !isCA`, that is, when `options.caCertificate` is not `nil`
    let (privateKeyToUse, certificateToUse) : Option PrivateKey × Certificate :=
      match options.caCertificate with
      | some caCertificate => (options.caPrivateKey, caCertificate)
      | none => (privateKey, template)
    -- the argument `&privateKey.PublicKey` dereferences `privateKey`
    match privateKey with
    | none => .panicked
    | some key =>
      -- `x509.CreateCertificate` dereferences the signer `privateKeyToUse`
      match privateKeyToUse with
      | none => .panicked
      | some signer =>
        match lib.x509CreateCertificate template certificateToUse key.PublicKey signer with
        | .error err => .returned ⟨none, none, some err⟩
        | .ok certDerBytes =>
          match lib.parseCertificate certDerBytes with
          | .error err => .returned ⟨none, none, some err⟩
          | .ok certificate => .returned ⟨some certificate, some key, none⟩

/-! ## The PEM helpers -/

/-- The function `certificateToPem`. -/
def certificateToPem (lib : Lib) (derBytes : Bytes) : String :=
  lib.pemEncode { Type_ := "CERTIFICATE", Bytes := derBytes }

/-- The function `privateKeyToPem`. -/
def privateKeyToPem (lib : Lib) (privateKey : PrivateKey) : String :=
  lib.pemEncode { Type_ := "RSA PRIVATE KEY", Bytes := lib.marshalPKCS1PrivateKey privateKey }

/-- The function `pemToCertificate`: the rest that `pem.Decode` returns is dropped. -/
def pemToCertificate (lib : Lib) (raw : String) : Except Error Certificate :=
  match (lib.pemDecode raw).1 with
  | none => .error "The raw pem is not a valid PEM formatted block"
  | some cpb => lib.parseCertificate cpb.Bytes

/-- The function `pemToKey`: the rest that `pem.Decode` returns is dropped. -/
def pemToKey (lib : Lib) (raw : String) : Except Error PrivateKey :=
  match (lib.pemDecode raw).1 with
  | none => .error "The raw pem is not a valid PEM formatted block"
  | some kpb => lib.parsePKCS1PrivateKey kpb.Bytes

/-- The struct literal `&PkiKeyCertPair{CertificatePem: string(certificateToPem(c.Raw)),
PrivateKeyPem: string(privateKeyToPem(k))}` on two pointers: `c.Raw` dereferences the
certificate, `x509.MarshalPKCS1PrivateKey` dereferences the key. -/
def keyCertPair (lib : Lib) (certificate : Option Certificate) (privateKey : Option PrivateKey) :
    Outcome PkiKeyCertPair :=
  match certificate with
  | none => .panicked
  | some c =>
    match privateKey with
    | none => .panicked
    | some k =>
      .returned { CertificatePem := certificateToPem lib c.Raw, PrivateKeyPem := privateKeyToPem lib k }

/-! ## `CreatePkiKeyCertPair` -/

/-- The `certOptions` literal of `CreatePkiKeyCertPair`. -/
def CreatePkiKeyCertPair.certOpt (options : PkiKeyCertPairOptions) : certOptions :=
  { commonName := options.CommonName
    caCertificate := none
    caPrivateKey := none
    isEtcd := false
    isServer := false
    extraFQDNs := []
    extraIPs := []
    organization := none
    keySize := options.KeySize }

/-- The function `CreatePkiKeyCertPair`, returning `(*PkiKeyCertPair, error)`. -/
def CreatePkiKeyCertPair (lib : Lib) (amb : Ambient) (options : PkiKeyCertPairOptions) :
    Outcome (Option PkiKeyCertPair × Option Error) :=
  match createCertificate lib amb (CreatePkiKeyCertPair.certOpt options) with
  | .panicked => .panicked
  | .returned r =>
    match r.err with
    | some err => .returned (none, some err)
    | none =>
      match keyCertPair lib r.certificate r.privateKey with
      | .panicked => .panicked
      | .returned caPair => .returned (some caPair, none)

/-! ## `CreatePki` -/

/-- The signing jobs that `CreatePki` hands to its `errgroup.Group`, in the order of
the `group.Go` calls; `etcdPeer i` is the job of loop index `i`. -/
inductive Job where
  | apiServer
  | client
  | kubeConfig
  | etcdServer
  | etcdClient
  | etcdPeer (i : Nat)
  deriving DecidableEq, Repr

/-- The surroundings of one call of `CreatePki`: the library, what each job reads
from the clock and the random source, and the time at which each job finishes
(jobs run concurrently, so any order of completion is possible). -/
structure Env where
  lib : Lib
  ambient : Job → Ambient
  finished : Job → Nat

/-- What `CreatePki` returns: five `*PkiKeyCertPair`, a `[]*PkiKeyCertPair` and an `error`. -/
structure PkiResult where
  apiServer : Option PkiKeyCertPair
  client : Option PkiKeyCertPair
  kubeConfig : Option PkiKeyCertPair
  etcdServer : Option PkiKeyCertPair
  etcdClient : Option PkiKeyCertPair
  etcdPeers : Option (List (Option PkiKeyCertPair))
  err : Option Error
  deriving DecidableEq, Repr

/-- The statement `return nil, nil, nil, nil, nil, nil, err`. -/
def PkiResult.failed (err : Error) : PkiResult :=
  { apiServer := none, client := none, kubeConfig := none, etcdServer := none,
    etcdClient := none, etcdPeers := none, err := some err }

/-- A call of `CreatePki` that returned: the calls of `createCertificate` its jobs
made, and the returned values. -/
structure PkiRun where
  calls : List (Job × certOptions)
  result : PkiResult
  deriving DecidableEq, Repr

/-- The seven `append` statements at the head of `CreatePki`. -/
def CreatePki.extraFQDNs (pkiOptions : PkiOptions) : List String :=
  pkiOptions.ExtraFQDNs
    ++ ["kubernetes"]
    ++ ["kubernetes.default"]
    ++ ["kubernetes.default.svc"]
    ++ ["kubernetes.default.svc." ++ pkiOptions.ClusterDomain]
    ++ ["kubernetes.kube-system"]
    ++ ["kubernetes.kube-system.svc"]
    ++ ["kubernetes.kube-system.svc." ++ pkiOptions.ClusterDomain]

/-- The `certOptions` literal of each job; `pkiOptions` is the value after the
appends, the CA certificate and key are the decoded ones. -/
def CreatePki.certOpt (pkiOptions : PkiOptions) (caCertificate : Certificate)
    (caPrivateKey : PrivateKey) : Job → certOptions
  | .apiServer =>
    { commonName := "apiserver"
      caCertificate := some caCertificate
      caPrivateKey := some caPrivateKey
      isEtcd := false
      isServer := true
      extraFQDNs := pkiOptions.ExtraFQDNs
      extraIPs := pkiOptions.ExtraIPs
      organization := none
      keySize := pkiOptions.PkiKeySize }
  | .client =>
    { commonName := "client"
      caCertificate := some caCertificate
      caPrivateKey := some caPrivateKey
      isEtcd := false
      isServer := false
      extraFQDNs := []
      extraIPs := []
      organization := some ["system:masters"]
      keySize := pkiOptions.PkiKeySize }
  | .kubeConfig =>
    { commonName := "client"
      caCertificate := some caCertificate
      caPrivateKey := some caPrivateKey
      isEtcd := false
      isServer := false
      extraFQDNs := []
      extraIPs := []
      organization := some ["system:masters"]
      keySize := pkiOptions.PkiKeySize }
  | .etcdServer =>
    { commonName := "etcdserver"
      caCertificate := some caCertificate
      caPrivateKey := some caPrivateKey
      isEtcd := true
      isServer := true
      extraFQDNs := []
      extraIPs := pkiOptions.ExtraIPs
      organization := none
      keySize := pkiOptions.PkiKeySize }
  | .etcdClient =>
    { commonName := "etcdclient"
      caCertificate := some caCertificate
      caPrivateKey := some caPrivateKey
      isEtcd := true
      isServer := false
      extraFQDNs := []
      extraIPs := pkiOptions.ExtraIPs
      organization := none
      keySize := pkiOptions.PkiKeySize }
  | .etcdPeer _ =>
    { commonName := "etcdpeer"
      caCertificate := some caCertificate
      caPrivateKey := some caPrivateKey
      isEtcd := true
      isServer := false
      extraFQDNs := []
      extraIPs := pkiOptions.ExtraIPs
      organization := none
      keySize := pkiOptions.PkiKeySize }

/-- The body of a storage-peer job: it fills its slot from the two pointers that
`createCertificate` returned before it looks at the error, then returns the error. -/
def CreatePki.peerJob (lib : Lib) (amb : Ambient) (certOpt : certOptions) :
    Outcome (PkiKeyCertPair × Option Error) :=
  match createCertificate lib amb certOpt with
  | .panicked => .panicked
  | .returned r =>
    match keyCertPair lib r.certificate r.privateKey with
    | .panicked => .panicked
    | .returned pair => .returned (pair, r.err)

/-- The storage-peer jobs of the loop indices `indices` on the slice `slots`: job
`i` writes slot `i`; the second component lists what each job returned. -/
def CreatePki.peerJobs (env : Env) (certOpt : Job → certOptions) :
    List Nat → List (Option PkiKeyCertPair) →
    Outcome (List (Option PkiKeyCertPair) × List (Job × Option Error))
  | [], slots => .returned (slots, [])
  | i :: rest, slots =>
    match CreatePki.peerJob env.lib (env.ambient (.etcdPeer i)) (certOpt (.etcdPeer i)) with
    | .panicked => .panicked
    | .returned (pair, err) =>
      match CreatePki.peerJobs env certOpt rest (slots.set i (some pair)) with
      | .panicked => .panicked
      | .returned (slots, errs) => .returned (slots, (.etcdPeer i, err) :: errs)

/-- The error that `errgroup` keeps: that of the failed job that finished first
(`errOnce`), with the time at which that job finished. -/
def firstError (finished : Job → Nat) : List (Job × Option Error) → Option (Nat × Error)
  | [] => none
  | (_, none) :: rest => firstError finished rest
  | (job, some err) :: rest =>
    match firstError finished rest with
    | none => some (finished job, err)
    | some (t, e) => if t < finished job then some (t, e) else some (finished job, err)

/-- The method `group.Wait()`: `nil` when no job returned an error, else the first one. -/
def groupWait (finished : Job → Nat) (errs : List (Job × Option Error)) : Option Error :=
  (firstError finished errs).map Prod.snd

/-- The jobs `CreatePki` starts, in the order of the `group.Go` calls: the five fixed
ones, then one per loop index below `MasterCount`. -/
def CreatePki.jobs (pkiOptions : PkiOptions) : List Job :=
  [.apiServer, .client, .kubeConfig, .etcdServer, .etcdClient]
    ++ (List.range pkiOptions.MasterCount.toNat).map Job.etcdPeer

/-- The function `CreatePki` (its timing log is left out). -/
def CreatePki (env : Env) (pkiOptions : PkiOptions) : Outcome PkiRun :=
  let pkiOptions := { pkiOptions with ExtraFQDNs := CreatePki.extraFQDNs pkiOptions }
  match pkiOptions.CaPair with
  | none => .panicked
  | some caPair =>
    match pemToCertificate env.lib caPair.CertificatePem with
    | .error err => .returned { calls := [], result := .failed err }
    | .ok caCertificate =>
      match pemToKey env.lib caPair.PrivateKeyPem with
      | .error err => .returned { calls := [], result := .failed err }
      | .ok caPrivateKey =>
        let certOpt := CreatePki.certOpt pkiOptions caCertificate caPrivateKey
        let job := fun j => createCertificate env.lib (env.ambient j) (certOpt j)
        match job .apiServer, job .client, job .kubeConfig, job .etcdServer, job .etcdClient with
        | .returned apiServer, .returned client, .returned kubeConfig, .returned etcdServer,
            .returned etcdClient =>
          -- `make([]*PkiKeyCertPair, pkiOptions.MasterCount)`
          if pkiOptions.MasterCount < 0 then .panicked
          else
            let indices := List.range pkiOptions.MasterCount.toNat
            match CreatePki.peerJobs env certOpt indices
                (List.replicate pkiOptions.MasterCount.toNat none) with
            | .panicked => .panicked
            | .returned (etcdPeerCertPairs, peerErrs) =>
              let calls := (CreatePki.jobs pkiOptions).map fun j => (j, certOpt j)
              let errs := [(Job.apiServer, apiServer.err), (Job.client, client.err),
                (Job.kubeConfig, kubeConfig.err), (Job.etcdServer, etcdServer.err),
                (Job.etcdClient, etcdClient.err)] ++ peerErrs
              match groupWait env.finished errs with
              | some err => .returned { calls := calls, result := .failed err }
              | none =>
                match keyCertPair env.lib apiServer.certificate apiServer.privateKey,
                    keyCertPair env.lib client.certificate client.privateKey,
                    keyCertPair env.lib kubeConfig.certificate kubeConfig.privateKey,
                    keyCertPair env.lib etcdServer.certificate etcdServer.privateKey,
                    keyCertPair env.lib etcdClient.certificate etcdClient.privateKey with
                | .returned p1, .returned p2, .returned p3, .returned p4, .returned p5 =>
                  .returned
                    { calls := calls
                      result :=
                        { apiServer := some p1, client := some p2, kubeConfig := some p3,
                          etcdServer := some p4, etcdClient := some p5,
                          etcdPeers := some etcdPeerCertPairs, err := none } }
                | _, _, _, _, _ => .panicked
        | _, _, _, _, _ => .panicked

/-! ## A small executable library

A stand-in for the standard library on which the definitions above can be run:
a PEM text is the BEGIN line, the payload in hexadecimal on one line and the END
line; a DER certificate is a list of seven numbers, a DER key the numbers of the
key.  It is used for concrete runs only; the general theorems quantify over
every `Lib`, `Ambient` and `Env`. -/

/-- The hexadecimal text of a byte string. -/
def demoHex : Bytes → List Char
  | [] => []
  | b :: bs => Nat.digitChar (b / 16 % 16) :: Nat.digitChar (b % 16) :: demoHex bs

/-- The value of a hexadecimal digit. -/
def demoHexVal (c : Char) : Option Nat :=
  if '0' ≤ c ∧ c ≤ '9' then some (c.toNat - '0'.toNat)
  else if 'a' ≤ c ∧ c ≤ 'f' then some (c.toNat - 'a'.toNat + 10)
  else none

/-- The byte string of a hexadecimal text. -/
def demoUnhex : List Char → Option Bytes
  | [] => some []
  | [_] => none
  | hi :: lo :: rest =>
    match demoHexVal hi, demoHexVal lo, demoUnhex rest with
    | some h, some l, some bs => some ((h * 16 + l) :: bs)
    | _, _, _ => none

/-- The text after a leading `lead`, when the text starts with it. -/
def demoAfter (lead : List Char) (text : List Char) : Option (List Char) :=
  if lead.isPrefixOf text then some (text.drop lead.length) else none

/-- The stand-in for `pem.Encode`. -/
def demoPemEncode (b : PemBlock) : String :=
  "-----BEGIN " ++ b.Type_ ++ "-----\n" ++ String.mk (demoHex b.Bytes)
    ++ "\n-----END " ++ b.Type_ ++ "-----\n"

/-- The stand-in for `pem.Decode`: the first block and what follows it, or no
block and the whole input. -/
def demoPemDecode (raw : String) : Option PemBlock × String :=
  match demoAfter "-----BEGIN ".data raw.data with
  | none => (none, raw)
  | some afterBegin =>
    let type := afterBegin.takeWhile (· ≠ '-')
    match demoAfter "-----\n".data (afterBegin.dropWhile (· ≠ '-')) with
    | none => (none, raw)
    | some body =>
      match demoUnhex (body.takeWhile (· ≠ '\n')),
          demoAfter ("\n-----END ".data ++ type ++ "-----\n".data) (body.dropWhile (· ≠ '\n')) with
      | some bytes, some rest => (some { Type_ := String.mk type, Bytes := bytes }, String.mk rest)
      | _, _ => (none, raw)

/-- The bit mask of a list of extended key usages in the stand-in DER. -/
def demoEkuMask : List ExtKeyUsage → Nat
  | [] => 0
  | ExtKeyUsageServerAuth :: rest => 1 ||| demoEkuMask rest
  | ExtKeyUsageClientAuth :: rest => 2 ||| demoEkuMask rest

/-- The extended key usages of a bit mask. -/
def demoEkuOfMask (m : Nat) : List ExtKeyUsage :=
  (if m % 2 = 1 then [ExtKeyUsageServerAuth] else [])
    ++ (if m / 2 % 2 = 1 then [ExtKeyUsageClientAuth] else [])

/-- The stand-in for `x509.CreateCertificate`: the signer must be the key of the
parent when the parent carries a public key. -/
def demoX509CreateCertificate (template parent : Certificate) (pub : PublicKey)
    (signer : PrivateKey) : Except Error Bytes :=
  if parent.PublicKey.isSome ∧ parent.PublicKey ≠ some signer.PublicKey then
    .error "x509: provided PrivateKey doesn't match parent's PublicKey"
  else
    .ok [template.SerialNumber.getD 0 % 256, template.KeyUsage,
      template.BasicConstraintsValid.toNat, template.IsCA.toNat,
      demoEkuMask template.ExtKeyUsage, pub.N, pub.E]

/-- The stand-in for `x509.ParseCertificate`. -/
def demoParseCertificate (der : Bytes) : Except Error Certificate :=
  match der with
  | [serial, keyUsage, bcv, isCA, eku, n, e] =>
    .ok { Raw := der, SerialNumber := some serial, KeyUsage := keyUsage,
          BasicConstraintsValid := bcv != 0, IsCA := isCA != 0,
          ExtKeyUsage := demoEkuOfMask eku, PublicKey := some { N := n, E := e } }
  | _ => .error "asn1: structure error"

/-- The stand-in for `x509.MarshalPKCS1PrivateKey`. -/
def demoMarshalPKCS1PrivateKey (k : PrivateKey) : Bytes :=
  k.PublicKey.N :: k.PublicKey.E :: k.D :: k.Primes

/-- The stand-in for `x509.ParsePKCS1PrivateKey`. -/
def demoParsePKCS1PrivateKey (der : Bytes) : Except Error PrivateKey :=
  match der with
  | [n, e, d, p, q] => .ok { PublicKey := { N := n, E := e }, D := d, Primes := [p, q] }
  | _ => .error "asn1: structure error"

/-- The stand-in library. -/
def demoLib : Lib :=
  { pemEncode := demoPemEncode
    pemDecode := demoPemDecode
    parseCertificate := demoParseCertificate
    marshalPKCS1PrivateKey := demoMarshalPKCS1PrivateKey
    parsePKCS1PrivateKey := demoParsePKCS1PrivateKey
    x509CreateCertificate := demoX509CreateCertificate }

/-- A leaf key of the stand-in: the RSA key of the primes 11 and 17. -/
def demoKey : PrivateKey :=
  { PublicKey := { N := 187, E := 7 }, D := 23, Primes := [11, 17] }

/-- The CA key of the stand-in: the RSA key of the primes 13 and 19. -/
def demoCaKey : PrivateKey :=
  { PublicKey := { N := 247, E := 5 }, D := 173, Primes := [13, 19] }

/-- A clock and random source that work: the serial number drawn is `serial`, the
key generated is `key`; as `rsa.GenerateKey` does, it refuses a size that has no
room for two primes. -/
def demoAmbient (serial : Nat) (key : PrivateKey) : Ambient :=
  { now := 1546300800000000000
    randInt := fun max => .ok (serial % max)
    generateKey := fun bits =>
      if bits < 12 then
        .error "crypto/rsa: too few primes of given length to generate an RSA key"
      else .ok key }

/-- A random source whose reads fail. -/
def demoNoEntropy : Ambient :=
  { now := 1546300800000000000
    randInt := fun _ => .error "read /dev/urandom: input/output error"
    generateKey := fun _ => .error "read /dev/urandom: input/output error" }

/-- The DER of the CA certificate of the stand-in. -/
def demoCaDer : Bytes := [1, 37, 1, 1, 0, 247, 5]

/-- The CA pair of the stand-in, as PEM. -/
def demoCaPair : PkiKeyCertPair :=
  { CertificatePem := certificateToPem demoLib demoCaDer
    PrivateKeyPem := privateKeyToPem demoLib demoCaKey }

/-- Surroundings in which every job draws its own serial number and generates `demoKey`;
jobs finish in the order in which they were started. -/
def demoEnv : Env :=
  { lib := demoLib
    ambient := fun j =>
      match j with
      | .apiServer => demoAmbient 10 demoKey
      | .client => demoAmbient 11 demoKey
      | .kubeConfig => demoAmbient 12 demoKey
      | .etcdServer => demoAmbient 13 demoKey
      | .etcdClient => demoAmbient 14 demoKey
      | .etcdPeer i => demoAmbient (20 + i) demoKey
    finished := fun j =>
      match j with
      | .apiServer => 0
      | .client => 1
      | .kubeConfig => 2
      | .etcdServer => 3
      | .etcdClient => 4
      | .etcdPeer i => 5 + i }

/-- A request for two storage peers under the CA of the stand-in. -/
def demoOptions : PkiOptions :=
  { ExtraFQDNs := ["master.example.com"]
    ExtraIPs := [[10, 0, 0, 1]]
    ClusterDomain := "cluster.local"
    CaPair := some demoCaPair
    MasterCount := 2
    PkiKeySize := 2048 }

/-- The CA certificate of the stand-in, as `x509.ParseCertificate` returns it. -/
def demoCaCertificate : Certificate :=
  { Raw := demoCaDer, SerialNumber := some 1, KeyUsage := 37, BasicConstraintsValid := true,
    IsCA := true, PublicKey := some { N := 247, E := 5 } }

/-- The certificate that the apiserver job of `demoOptions` gets in `demoEnv`. -/
def demoApiServerCertificate : Certificate :=
  { Raw := [10, 5, 1, 0, 1, 187, 7], SerialNumber := some 10, KeyUsage := 5,
    BasicConstraintsValid := true, IsCA := false, ExtKeyUsage := [ExtKeyUsageServerAuth],
    PublicKey := some { N := 187, E := 7 } }

/-- The request `demoOptions` with a key size of zero bits. -/
def demoZeroKeySize : PkiOptions :=
  { demoOptions with PkiKeySize := 0 }

/-- The request `demoOptions` for one storage peer. -/
def demoOnePeer : PkiOptions :=
  { demoOptions with MasterCount := 1 }

/-- The surroundings `demoEnv`, except that the random source fails in the job of
storage peer 0. -/
def demoEnvPeerFails : Env :=
  { demoEnv with
    ambient := fun j => if j = .etcdPeer 0 then demoNoEntropy else demoEnv.ambient j }

/-- The request `demoOptions` with a CA certificate PEM whose payload is not hexadecimal. -/
def demoCorruptCert : PkiOptions :=
  { demoOptions with
    CaPair := some { demoCaPair with
      CertificatePem := "-----BEGIN CERTIFICATE-----\nzz\n-----END CERTIFICATE-----\n" } }

/-- The request `demoOptions` with a CA key PEM that has no BEGIN line. -/
def demoCorruptKey : PkiOptions :=
  { demoOptions with CaPair := some { demoCaPair with PrivateKeyPem := "f705ad0d13" } }

/-- A PEM text whose only block has the type `RSA PRIVATE KEY` and holds the DER of
the CA certificate. -/
def demoMislabelledCert : String :=
  demoLib.pemEncode { Type_ := "RSA PRIVATE KEY", Bytes := demoCaDer }

/-- A PEM text of two `CERTIFICATE` blocks: the CA certificate, then another one. -/
def demoBundle : String :=
  certificateToPem demoLib demoCaDer ++ certificateToPem demoLib [10, 5, 1, 0, 1, 187, 7]

/-- A PEM text whose only block has the type `CERTIFICATE` and holds the DER of the CA key. -/
def demoMislabelledKey : String :=
  demoLib.pemEncode { Type_ := "CERTIFICATE", Bytes := demoLib.marshalPKCS1PrivateKey demoCaKey }

/-- The run of `CreatePki` on `demoOptions` in `demoEnv`. -/
def demoRun : PkiRun :=
  match CreatePki demoEnv demoOptions with
  | .returned run => run
  | .panicked => { calls := [], result := .failed "panic" }

/-! ## The template of `createCertificate` -/

/-- The template of a leaf: an issuer certificate is present. -/
theorem template_of_leaf (options : certOptions) (now : Nat) (ca : Certificate)
    (h : options.caCertificate = some ca) :
    (createCertificate.template options now).KeyUsage
        = KeyUsageKeyEncipherment ||| KeyUsageDigitalSignature
      ∧ (createCertificate.template options now).IsCA = false
      ∧ (createCertificate.template options now).BasicConstraintsValid = true := by
  unfold createCertificate.template
  simp only [h, Option.isNone_some, Bool.false_eq_true, if_false]
  cases options.organization <;> (split_ifs <;> simp)

/-- The template of a CA: the issuer certificate is `nil`. -/
theorem template_of_ca (options : certOptions) (now : Nat)
    (h : options.caCertificate = none) :
    (createCertificate.template options now).KeyUsage
        = KeyUsageKeyEncipherment ||| KeyUsageDigitalSignature ||| KeyUsageCertSign
      ∧ (createCertificate.template options now).IsCA = true
      ∧ (createCertificate.template options now).BasicConstraintsValid = true
      ∧ (createCertificate.template options now).ExtKeyUsage = []
      ∧ (createCertificate.template options now).DNSNames = []
      ∧ (createCertificate.template options now).IPAddresses = [] := by
  unfold createCertificate.template
  simp only [h, Option.isNone_none, if_true]
  cases options.organization <;> simp

/-- The template of a storage-tier leaf whose common name is neither `etcdServer`
nor `etcdClient`: both usages, server first. -/
theorem template_of_etcd_other (options : certOptions) (now : Nat) (ca : Certificate)
    (h : options.caCertificate = some ca) (hetcd : options.isEtcd = true)
    (hs : options.commonName ≠ "etcdServer") (hc : options.commonName ≠ "etcdClient") :
    (createCertificate.template options now).ExtKeyUsage
        = [ExtKeyUsageServerAuth, ExtKeyUsageClientAuth]
      ∧ (createCertificate.template options now).IPAddresses = options.extraIPs
      ∧ (createCertificate.template options now).DNSNames = [] := by
  unfold createCertificate.template
  simp only [h, Option.isNone_some, Bool.false_eq_true, if_false, hetcd, if_true, hs, hc]
  cases options.organization <;> simp

/-- The template of a server leaf outside the storage tier. -/
theorem template_of_server (options : certOptions) (now : Nat) (ca : Certificate)
    (h : options.caCertificate = some ca) (hetcd : options.isEtcd = false)
    (hserver : options.isServer = true) :
    (createCertificate.template options now).ExtKeyUsage = [ExtKeyUsageServerAuth]
      ∧ (createCertificate.template options now).IPAddresses = options.extraIPs
      ∧ (createCertificate.template options now).DNSNames = options.extraFQDNs := by
  unfold createCertificate.template
  simp only [h, Option.isNone_some, Bool.false_eq_true, if_false, hetcd, hserver, if_true]
  cases options.organization <;> simp

/-! ## `createCertificate`, the jobs and the join -/

/-- What `createCertificate` returns is all-or-nothing: an error alone, or a certificate
that `x509.ParseCertificate` produced with the key that `rsa.GenerateKey` produced. -/
theorem createCertificate_returned (lib : Lib) (amb : Ambient) (options : certOptions)
    (r : CertResult) (h : createCertificate lib amb options = .returned r) :
    (∃ err, r = ⟨none, none, some err⟩)
      ∨ ∃ c k der, r = ⟨some c, some k, none⟩ ∧ lib.parseCertificate der = .ok c
          ∧ amb.generateKey options.keySize = .ok k := by
  unfold createCertificate at h
  cases hs : amb.randInt snMax with
  | error e =>
    simp only [hs] at h
    exact Or.inl ⟨e, by cases h; rfl⟩
  | ok sn =>
    cases hk : amb.generateKey options.keySize with
    | error e => simp [hs, hk, Except.toOption] at h
    | ok k =>
      simp only [hs, hk, Except.toOption] at h
      split at h
      · cases h
      · split at h
        · cases h; exact Or.inl ⟨_, rfl⟩
        · split at h
          · cases h; exact Or.inl ⟨_, rfl⟩
          · next c hc => cases h; exact Or.inr ⟨c, k, _, rfl, hc, rfl⟩

/-- When the serial number is drawn and key generation fails, `createCertificate` panics. -/
theorem createCertificate_keygen_failure (lib : Lib) (amb : Ambient) (options : certOptions)
    (serial : Nat) (err : Error) (hs : amb.randInt snMax = .ok serial)
    (hk : amb.generateKey options.keySize = .error err) :
    createCertificate lib amb options = .panicked := by
  simp [createCertificate, hs, hk, Except.toOption]

/-- No first error exactly when no job returned an error. -/
theorem firstError_eq_none (finished : Job → Nat) (errs : List (Job × Option Error)) :
    firstError finished errs = none ↔ ∀ x ∈ errs, x.2 = none := by
  induction errs with
  | nil => simp [firstError]
  | cons x rest ih =>
    obtain ⟨job, e⟩ := x
    cases e with
    | none => simp [firstError, ih]
    | some err =>
      simp only [firstError]
      cases firstError finished rest with
      | none => simp
      | some te =>
        obtain ⟨t, e⟩ := te
        simp only []
        split_ifs <;> simp

/-- The method `Wait` returns `nil` exactly when no job returned an error. -/
theorem groupWait_eq_none (finished : Job → Nat) (errs : List (Job × Option Error)) :
    groupWait finished errs = none ↔ ∀ x ∈ errs, x.2 = none := by
  simp [groupWait, firstError_eq_none]

/-- A pair is built only from a certificate and a key that are not `nil`. -/
theorem keyCertPair_returned (lib : Lib) (certificate : Option Certificate)
    (privateKey : Option PrivateKey) (pair : PkiKeyCertPair)
    (h : keyCertPair lib certificate privateKey = .returned pair) :
    ∃ c k, certificate = some c ∧ privateKey = some k
      ∧ pair = ⟨certificateToPem lib c.Raw, privateKeyToPem lib k⟩ := by
  unfold keyCertPair at h
  cases certificate with
  | none => cases h
  | some c =>
    cases privateKey with
    | none => cases h
    | some k => cases h; exact ⟨c, k, rfl, rfl, rfl⟩

/-- A storage-peer job that returns had a successful `createCertificate`. -/
theorem peerJob_returned (lib : Lib) (amb : Ambient) (certOpt : certOptions)
    (pair : PkiKeyCertPair) (err : Option Error)
    (h : CreatePki.peerJob lib amb certOpt = .returned (pair, err)) :
    err = none ∧ ∃ c k, createCertificate lib amb certOpt = .returned ⟨some c, some k, none⟩
      ∧ pair = ⟨certificateToPem lib c.Raw, privateKeyToPem lib k⟩ := by
  unfold CreatePki.peerJob at h
  cases hc : createCertificate lib amb certOpt with
  | panicked => simp [hc] at h
  | returned r =>
    simp only [hc] at h
    cases hp : keyCertPair lib r.certificate r.privateKey with
    | panicked => simp [hp] at h
    | returned p =>
      simp only [hp, Outcome.returned.injEq, Prod.mk.injEq] at h
      obtain ⟨c, k, h1, h2, h3⟩ := keyCertPair_returned _ _ _ _ hp
      rcases createCertificate_returned _ _ _ _ hc with ⟨e, he⟩ | ⟨c', k', der, hr, -, -⟩
      · rw [he] at h1; cases h1
      · subst hr
        cases h1; cases h2
        obtain ⟨rfl, rfl⟩ := h
        exact ⟨rfl, c, k, rfl, h3⟩

/-- A storage-peer job whose `createCertificate` returns an error panics. -/
theorem peerJob_error (lib : Lib) (amb : Ambient) (certOpt : certOptions) (r : CertResult)
    (err : Error) (hc : createCertificate lib amb certOpt = .returned r) (he : r.err = some err) :
    CreatePki.peerJob lib amb certOpt = .panicked := by
  rcases createCertificate_returned _ _ _ _ hc with ⟨e, rfl⟩ | ⟨c', k', der, rfl, -, -⟩
  · simp [CreatePki.peerJob, hc, keyCertPair]
  · cases he

/-- The storage-peer jobs, when all return: the slice keeps its length, no job reports
an error, slots outside the indices are untouched and the slots of the indices are filled. -/
theorem peerJobs_returned (env : Env) (certOpt : Job → certOptions) (indices : List Nat) :
    ∀ (slots slots' : List (Option PkiKeyCertPair)) (errs : List (Job × Option Error)),
      CreatePki.peerJobs env certOpt indices slots = .returned (slots', errs) →
      slots'.length = slots.length
        ∧ (∀ x ∈ errs, x.2 = none)
        ∧ (∀ j, j ∉ indices → slots'[j]? = slots[j]?)
        ∧ (∀ j, j ∈ indices → j < slots.length → ∃ p, slots'[j]? = some (some p)) := by
  induction indices with
  | nil =>
    intro slots slots' errs h
    simp only [CreatePki.peerJobs, Outcome.returned.injEq, Prod.mk.injEq] at h
    obtain ⟨rfl, rfl⟩ := h
    simp
  | cons i rest ih =>
    intro slots slots' errs h
    unfold CreatePki.peerJobs at h
    cases hj : CreatePki.peerJob env.lib (env.ambient (.etcdPeer i)) (certOpt (.etcdPeer i)) with
    | panicked => simp [hj] at h
    | returned pe =>
      obtain ⟨pair, err⟩ := pe
      simp only [hj] at h
      cases hr : CreatePki.peerJobs env certOpt rest (slots.set i (some pair)) with
      | panicked => simp [hr] at h
      | returned se =>
        obtain ⟨s2, e2⟩ := se
        simp only [hr, Outcome.returned.injEq, Prod.mk.injEq] at h
        obtain ⟨rfl, rfl⟩ := h
        obtain ⟨hlen, herr, hframe, hset⟩ := ih _ _ _ hr
        have herr0 := (peerJob_returned _ _ _ _ _ hj).1
        refine ⟨by simpa using hlen, ?_, ?_, ?_⟩
        · intro x hx
          rcases List.mem_cons.mp hx with rfl | hx
          · exact herr0
          · exact herr x hx
        · intro j hj'
          have hne : j ≠ i := fun h => hj' (h ▸ List.mem_cons_self _ _)
          have hnr : j ∉ rest := fun h => hj' (List.mem_cons_of_mem _ h)
          rw [hframe j hnr, List.getElem?_set_ne (Ne.symm hne)]
        · intro j hj' hlt
          by_cases hjr : j ∈ rest
          · exact hset j hjr (by simpa using hlt)
          · have hji : j = i := by
              rcases List.mem_cons.mp hj' with h | h
              · exact h
              · exact absurd h hjr
            subst hji
            refine ⟨pair, ?_⟩
            rw [hframe j hjr, List.getElem?_set_self hlt]

/-- Every way in which `CreatePki` returns: a decode failure before any job, or after
all jobs either the first job error or the complete result. -/
theorem CreatePki_returned (env : Env) (pkiOptions : PkiOptions) (run : PkiRun)
    (h : CreatePki env pkiOptions = .returned run) :
    ∃ caPair, pkiOptions.CaPair = some caPair ∧
      ((∃ err, (pemToCertificate env.lib caPair.CertificatePem = .error err
            ∨ ∃ ca, pemToCertificate env.lib caPair.CertificatePem = .ok ca
                ∧ pemToKey env.lib caPair.PrivateKeyPem = .error err)
          ∧ run = { calls := [], result := .failed err })
      ∨ ∃ ca key, pemToCertificate env.lib caPair.CertificatePem = .ok ca
          ∧ pemToKey env.lib caPair.PrivateKeyPem = .ok key
          ∧ 0 ≤ pkiOptions.MasterCount
          ∧ run.calls = (CreatePki.jobs pkiOptions).map (fun j =>
              (j, CreatePki.certOpt
                { pkiOptions with ExtraFQDNs := CreatePki.extraFQDNs pkiOptions } ca key j))
          ∧ ((∃ err, run.result = .failed err)
            ∨ ∃ p1 p2 p3 p4 p5 peers,
                run.result = { apiServer := some p1, client := some p2, kubeConfig := some p3,
                               etcdServer := some p4, etcdClient := some p5,
                               etcdPeers := some peers, err := none }
                ∧ peers.length = pkiOptions.MasterCount.toNat
                ∧ ∀ j, j < peers.length → ∃ p, peers[j]? = some (some p))) := by
  unfold CreatePki at h
  simp only at h
  cases hp : pkiOptions.CaPair with
  | none => simp [hp] at h
  | some caPair =>
    refine ⟨caPair, rfl, ?_⟩
    simp only [hp] at h
    cases hc : pemToCertificate env.lib caPair.CertificatePem with
    | error err =>
      simp only [hc, Outcome.returned.injEq] at h
      exact Or.inl ⟨err, Or.inl rfl, h.symm⟩
    | ok ca =>
      simp only [hc] at h
      cases hk : pemToKey env.lib caPair.PrivateKeyPem with
      | error err =>
        simp only [hk, Outcome.returned.injEq] at h
        exact Or.inl ⟨err, Or.inr ⟨ca, rfl, rfl⟩, h.symm⟩
      | ok key =>
        simp only [hk] at h
        refine Or.inr ⟨ca, key, rfl, rfl, ?_⟩
        split at h
        · split at h
          · cases h
          · next hm =>
            split at h
            · cases h
            · next slots errs hpeers =>
              obtain ⟨hlen, herr, -, hset⟩ := peerJobs_returned _ _ _ _ _ _ hpeers
              refine ⟨not_lt.mp hm, ?_⟩
              split at h
              · cases h
                exact ⟨rfl, Or.inl ⟨_, rfl⟩⟩
              · split at h
                · cases h
                  refine ⟨rfl, Or.inr ⟨_, _, _, _, _, slots, rfl, by simpa using hlen, ?_⟩⟩
                  intro j hj
                  apply hset j
                  · rw [hlen] at hj
                    simpa using hj
                  · rw [hlen] at hj
                    exact hj
                · cases h
        · cases h

/-- The template of each storage-tier job of `CreatePki`: none of the three common
names is `etcdServer` or `etcdClient`, so all three take the last branch. -/
theorem etcd_job_template (pkiOptions : PkiOptions) (caCertificate : Certificate)
    (caPrivateKey : PrivateKey) (now : Nat) (job : Job)
    (hjob : job = .etcdServer ∨ job = .etcdClient ∨ ∃ i, job = .etcdPeer i) :
    (createCertificate.template
        (CreatePki.certOpt pkiOptions caCertificate caPrivateKey job) now).ExtKeyUsage
      = [ExtKeyUsageServerAuth, ExtKeyUsageClientAuth] := by
  rcases hjob with rfl | rfl | ⟨i, rfl⟩
  · exact (template_of_etcd_other _ now caCertificate rfl rfl
      (show "etcdserver" ≠ "etcdServer" by decide)
      (show "etcdserver" ≠ "etcdClient" by decide)).1
  · exact (template_of_etcd_other _ now caCertificate rfl rfl
      (show "etcdclient" ≠ "etcdServer" by decide)
      (show "etcdclient" ≠ "etcdClient" by decide)).1
  · exact (template_of_etcd_other _ now caCertificate rfl rfl
      (show "etcdpeer" ≠ "etcdServer" by decide)
      (show "etcdpeer" ≠ "etcdClient" by decide)).1

/-- A storage-peer job that panics takes the whole loop with it. -/
theorem peerJobs_panicked (env : Env) (certOpt : Job → certOptions) (i : Nat)
    (hp : CreatePki.peerJob env.lib (env.ambient (.etcdPeer i)) (certOpt (.etcdPeer i))
      = .panicked) (indices : List Nat) (hi : i ∈ indices) :
    ∀ slots, CreatePki.peerJobs env certOpt indices slots = .panicked := by
  induction indices with
  | nil => cases hi
  | cons j rest ih =>
    intro slots
    unfold CreatePki.peerJobs
    by_cases hji : i = j
    · subst hji
      simp only [hp]
    · have hrest : i ∈ rest := by
        rcases List.mem_cons.mp hi with h | h
        · exact absurd h hji
        · exact h
      cases hj : CreatePki.peerJob env.lib (env.ambient (.etcdPeer j)) (certOpt (.etcdPeer j)) with
      | panicked => rfl
      | returned pe =>
        obtain ⟨pair, err⟩ := pe
        simp only [ih hrest]

/-- When the CA pair decodes and `createCertificate` returns an error in the job of
storage peer `i`, `CreatePki` panics. -/
theorem CreatePki_peer_error_panics (env : Env) (pkiOptions : PkiOptions)
    (caPair : PkiKeyCertPair) (ca : Certificate) (key : PrivateKey) (i : Nat)
    (r : CertResult) (err : Error)
    (hp : pkiOptions.CaPair = some caPair)
    (hc : pemToCertificate env.lib caPair.CertificatePem = .ok ca)
    (hk : pemToKey env.lib caPair.PrivateKeyPem = .ok key)
    (hi : (i : Int) < pkiOptions.MasterCount)
    (hjob : createCertificate env.lib (env.ambient (.etcdPeer i))
      (CreatePki.certOpt { pkiOptions with ExtraFQDNs := CreatePki.extraFQDNs pkiOptions }
        ca key (.etcdPeer i)) = .returned r)
    (he : r.err = some err) :
    CreatePki env pkiOptions = .panicked := by
  have hpanic := peerJob_error _ _ _ _ _ hjob he
  have hmem : i ∈ List.range pkiOptions.MasterCount.toNat := by
    rw [List.mem_range]; omega
  unfold CreatePki
  simp only [hp, hc, hk]
  split
  · rw [if_neg (by omega)]
    rw [hp] at hpanic
    simp only [peerJobs_panicked env _ i hpanic _ hmem]
  · rfl

/-- When `CreatePki` returns, the result is all-or-nothing: the error with `nil`
everywhere else, or no error with the five pairs and a peer slice of length
`MasterCount` without a `nil` slot. -/
theorem CreatePki_returned_all_or_nothing (env : Env) (pkiOptions : PkiOptions) (run : PkiRun)
    (h : CreatePki env pkiOptions = .returned run) :
    (∃ err, run.result.err = some err ∧ run.result.apiServer = none
        ∧ run.result.client = none ∧ run.result.kubeConfig = none
        ∧ run.result.etcdServer = none ∧ run.result.etcdClient = none
        ∧ run.result.etcdPeers = none)
      ∨ (run.result.err = none ∧ run.result.apiServer ≠ none
        ∧ run.result.client ≠ none ∧ run.result.kubeConfig ≠ none
        ∧ run.result.etcdServer ≠ none ∧ run.result.etcdClient ≠ none
        ∧ ∃ peers, run.result.etcdPeers = some peers
            ∧ (peers.length : Int) = pkiOptions.MasterCount
            ∧ ∀ slot ∈ peers, slot ≠ none) := by
  obtain ⟨caPair, -, hcases⟩ := CreatePki_returned env pkiOptions run h
  rcases hcases with ⟨err, -, rfl⟩ | ⟨ca, key, -, -, hm, -, hres⟩
  · exact Or.inl ⟨err, rfl, rfl, rfl, rfl, rfl, rfl, rfl⟩
  · rcases hres with ⟨err, hr⟩ | ⟨p1, p2, p3, p4, p5, peers, hr, hlen, hslots⟩
    · rw [hr]
      exact Or.inl ⟨err, rfl, rfl, rfl, rfl, rfl, rfl, rfl⟩
    · rw [hr]
      refine Or.inr ⟨rfl, by simp, by simp, by simp, by simp, by simp, peers, rfl, ?_, ?_⟩
      · rw [hlen]; omega
      · intro slot hslot hnone
        obtain ⟨j, hj, hget⟩ := List.getElem_of_mem hslot
        obtain ⟨p, hp⟩ := hslots j hj
        rw [List.getElem?_eq_getElem hj, hget, hnone] at hp
        cases hp

/-- The stand-in parser keeps the DER it parsed in `Raw`. -/
theorem demoParseCertificate_raw (der : Bytes) (c : Certificate)
    (h : demoParseCertificate der = .ok c) : c.Raw = der := by
  unfold demoParseCertificate at h
  split at h
  · cases h; rfl
  · cases h

/-! ## From the returned certificates to the signing calls -/

/-- A certificate that `createCertificate` returns is the parse of the DER that
`x509.CreateCertificate` gave for the template with the drawn serial number, the
generated public key, and the parent and signer of the kind of certificate. -/
theorem createCertificate_signed (lib : Lib) (amb : Ambient) (options : certOptions)
    (c : Certificate) (k : PrivateKey)
    (h : createCertificate lib amb options = .returned ⟨some c, some k, none⟩) :
    ∃ sn parent signer der,
      amb.randInt snMax = .ok sn ∧ amb.generateKey options.keySize = .ok k
        ∧ lib.x509CreateCertificate
            { createCertificate.template options amb.now with SerialNumber := some sn }
            parent k.PublicKey signer = .ok der
        ∧ lib.parseCertificate der = .ok c
        ∧ (∀ ca, options.caCertificate = some ca →
            parent = ca ∧ options.caPrivateKey = some signer)
        ∧ (options.caCertificate = none →
            parent = { createCertificate.template options amb.now with SerialNumber := some sn }
              ∧ signer = k) := by
  unfold createCertificate at h
  cases hs : amb.randInt snMax with
  | error e => simp [hs] at h
  | ok sn =>
    cases hk : amb.generateKey options.keySize with
    | error e => simp [hs, hk, Except.toOption] at h
    | ok key =>
      simp only [hs, hk, Except.toOption] at h
      cases hca : options.caCertificate with
      | none =>
        simp only [hca] at h
        cases hx : lib.x509CreateCertificate
            { createCertificate.template options amb.now with SerialNumber := some sn }
            { createCertificate.template options amb.now with SerialNumber := some sn }
            key.PublicKey key with
        | error e => simp [hx] at h
        | ok der =>
          simp only [hx] at h
          cases hp : lib.parseCertificate der with
          | error e => simp [hp] at h
          | ok c' =>
            simp only [hp, Outcome.returned.injEq, CertResult.mk.injEq, Option.some.injEq,
              and_true] at h
            obtain ⟨rfl, rfl⟩ := h
            exact ⟨sn, _, _, der, rfl, rfl, hx, hp, by simp, fun _ => ⟨rfl, rfl⟩⟩
      | some ca =>
        simp only [hca] at h
        cases hck : options.caPrivateKey with
        | none => simp [hck] at h
        | some signer =>
          simp only [hck] at h
          cases hx : lib.x509CreateCertificate
              { createCertificate.template options amb.now with SerialNumber := some sn }
              ca key.PublicKey signer with
          | error e => simp [hx] at h
          | ok der =>
            simp only [hx] at h
            cases hp : lib.parseCertificate der with
            | error e => simp [hp] at h
            | ok c' =>
              simp only [hp, Outcome.returned.injEq, CertResult.mk.injEq, Option.some.injEq,
                and_true] at h
              obtain ⟨rfl, rfl⟩ := h
              exact ⟨sn, ca, signer, der, rfl, rfl, hx, hp,
                fun ca' hca' => ⟨by cases hca'; rfl, rfl⟩, by simp⟩

/-- When the serial number is drawn, the key generated, and `x509.CreateCertificate`
and `x509.ParseCertificate` succeed on the template with that serial number,
`createCertificate` returns the parsed certificate and the generated key. -/
theorem createCertificate_of_success (lib : Lib) (amb : Ambient) (options : certOptions)
    (sn : Nat) (k : PrivateKey) (parent : Certificate) (signer : PrivateKey)
    (der : Bytes) (c : Certificate)
    (hs : amb.randInt snMax = .ok sn) (hk : amb.generateKey options.keySize = .ok k)
    (hkind : (options.caCertificate = some parent ∧ options.caPrivateKey = some signer)
      ∨ (options.caCertificate = none
          ∧ parent = { createCertificate.template options amb.now with SerialNumber := some sn }
          ∧ signer = k))
    (hx : lib.x509CreateCertificate
        { createCertificate.template options amb.now with SerialNumber := some sn }
        parent k.PublicKey signer = .ok der)
    (hp : lib.parseCertificate der = .ok c) :
    createCertificate lib amb options = .returned ⟨some c, some k, none⟩ := by
  unfold createCertificate
  rcases hkind with ⟨hca, hck⟩ | ⟨hca, rfl, rfl⟩
  · simp only [hs, hk, Except.toOption, hca, hck, hx, hp]
  · simp only [hs, hk, Except.toOption, hca, hx, hp]

/-- The slot of each storage-peer job that ran holds the pair of the certificate and
key that `createCertificate` returned to that job. -/
theorem peerJobs_slots (env : Env) (certOpt : Job → certOptions) (indices : List Nat) :
    ∀ (slots slots' : List (Option PkiKeyCertPair)) (errs : List (Job × Option Error)),
      CreatePki.peerJobs env certOpt indices slots = .returned (slots', errs) →
      ∀ j, j ∈ indices → j < slots.length →
        ∃ c k, createCertificate env.lib (env.ambient (.etcdPeer j)) (certOpt (.etcdPeer j))
            = .returned ⟨some c, some k, none⟩
          ∧ slots'[j]? = some (some ⟨certificateToPem env.lib c.Raw, privateKeyToPem env.lib k⟩) := by
  induction indices with
  | nil => intro _ _ _ _ j hj; cases hj
  | cons i rest ih =>
    intro slots slots' errs h j hj hlt
    have hall := peerJobs_returned env certOpt (i :: rest) slots slots' errs h
    unfold CreatePki.peerJobs at h
    cases hjob : CreatePki.peerJob env.lib (env.ambient (.etcdPeer i)) (certOpt (.etcdPeer i)) with
    | panicked => simp [hjob] at h
    | returned pe =>
      obtain ⟨pair, err⟩ := pe
      simp only [hjob] at h
      cases hr : CreatePki.peerJobs env certOpt rest (slots.set i (some pair)) with
      | panicked => simp [hr] at h
      | returned se =>
        obtain ⟨s2, e2⟩ := se
        simp only [hr, Outcome.returned.injEq, Prod.mk.injEq] at h
        obtain ⟨rfl, rfl⟩ := h
        by_cases hjr : j ∈ rest
        · exact ih _ _ _ hr j hjr (by simpa using hlt)
        · have hji : j = i := by
            rcases List.mem_cons.mp hj with h | h
            · exact h
            · exact absurd h hjr
          subst hji
          obtain ⟨-, c, k, hc, hpair⟩ := peerJob_returned _ _ _ _ _ hjob
          refine ⟨c, k, hc, ?_⟩
          have hframe := (peerJobs_returned env certOpt rest _ _ _ hr).2.2.1 j hjr
          rw [hframe, List.getElem?_set_self hlt, hpair]

/-- When `createCertificate` succeeds in every storage-peer job, the loop returns. -/
theorem peerJobs_of_success (env : Env) (certOpt : Job → certOptions) (indices : List Nat)
    (hall : ∀ i ∈ indices, ∃ c k,
      createCertificate env.lib (env.ambient (.etcdPeer i)) (certOpt (.etcdPeer i))
        = .returned ⟨some c, some k, none⟩) :
    ∀ slots, ∃ slots' errs, CreatePki.peerJobs env certOpt indices slots = .returned (slots', errs) := by
  induction indices with
  | nil => intro slots; exact ⟨slots, [], rfl⟩
  | cons i rest ih =>
    intro slots
    obtain ⟨c, k, hc⟩ := hall i (List.mem_cons_self _ _)
    obtain ⟨s2, e2, hr⟩ := ih (fun j hj => hall j (List.mem_cons_of_mem _ hj))
      (slots.set i (some ⟨certificateToPem env.lib c.Raw, privateKeyToPem env.lib k⟩))
    refine ⟨s2, (.etcdPeer i, none) :: e2, ?_⟩
    unfold CreatePki.peerJobs
    simp only [CreatePki.peerJob, hc, keyCertPair, hr]

/-- A successful run of `CreatePki`: the CA pair decoded, `createCertificate` succeeded in
every job, and each returned pair is the PEM of the certificate and key of its job. -/
theorem CreatePki_success (env : Env) (pkiOptions : PkiOptions) (run : PkiRun)
    (h : CreatePki env pkiOptions = .returned run) (hok : run.result.err = none) :
    ∃ caPair ca caKey peers,
      pkiOptions.CaPair = some caPair
        ∧ pemToCertificate env.lib caPair.CertificatePem = .ok ca
        ∧ pemToKey env.lib caPair.PrivateKeyPem = .ok caKey
        ∧ run.result.etcdPeers = some peers
        ∧ (∀ job field, (job, field) ∈ [(Job.apiServer, run.result.apiServer),
              (Job.client, run.result.client), (Job.kubeConfig, run.result.kubeConfig),
              (Job.etcdServer, run.result.etcdServer), (Job.etcdClient, run.result.etcdClient)] →
            ∃ c k, createCertificate env.lib (env.ambient job)
                (CreatePki.certOpt
                  { pkiOptions with ExtraFQDNs := CreatePki.extraFQDNs pkiOptions } ca caKey job)
                = .returned ⟨some c, some k, none⟩
              ∧ field = some ⟨certificateToPem env.lib c.Raw, privateKeyToPem env.lib k⟩)
        ∧ ∀ i : Nat, (i : Int) < pkiOptions.MasterCount →
            ∃ c k, createCertificate env.lib (env.ambient (.etcdPeer i))
                (CreatePki.certOpt
                  { pkiOptions with ExtraFQDNs := CreatePki.extraFQDNs pkiOptions } ca caKey
                  (.etcdPeer i))
                = .returned ⟨some c, some k, none⟩
              ∧ peers[i]? = some (some ⟨certificateToPem env.lib c.Raw, privateKeyToPem env.lib k⟩) := by
  unfold CreatePki at h
  simp only at h
  cases hp : pkiOptions.CaPair with
  | none => simp [hp] at h
  | some caPair =>
    simp only [hp] at h
    cases hc : pemToCertificate env.lib caPair.CertificatePem with
    | error err =>
      simp only [hc, Outcome.returned.injEq] at h
      subst h
      cases hok
    | ok ca =>
      simp only [hc] at h
      cases hk : pemToKey env.lib caPair.PrivateKeyPem with
      | error err =>
        simp only [hk, Outcome.returned.injEq] at h
        subst h
        cases hok
      | ok key =>
        simp only [hk] at h
        split at h
        · next r1 r2 r3 r4 r5 h1 h2 h3 h4 h5 =>
          split at h
          · cases h
          · next hm =>
            split at h
            · cases h
            · next slots errs hpeers =>
              split at h
              · cases h
                cases hok
              · next hwait =>
                rw [groupWait_eq_none] at hwait
                split at h
                · next p1 p2 p3 p4 p5 k1 k2 k3 k4 k5 =>
                  cases h
                  refine ⟨caPair, ca, key, slots, rfl, hc, hk, rfl, ?_, ?_⟩
                  · have fixed : ∀ (job : Job) (r : CertResult) (p : PkiKeyCertPair),
                        r.err = none → keyCertPair env.lib r.certificate r.privateKey = .returned p →
                        ∃ c k, r = ⟨some c, some k, none⟩
                          ∧ some p = some ⟨certificateToPem env.lib c.Raw, privateKeyToPem env.lib k⟩ := by
                      intro job r p he hkp
                      obtain ⟨c, k, hcc, hkk, hpp⟩ := keyCertPair_returned _ _ _ _ hkp
                      refine ⟨c, k, ?_, by rw [hpp]⟩
                      cases r
                      simp only at he hcc hkk
                      subst he hcc hkk
                      rfl
                    intro job field hmem
                    simp only [List.mem_cons, Prod.mk.injEq, List.mem_singleton, List.not_mem_nil,
                      or_false] at hmem
                    rcases hmem with ⟨rfl, rfl⟩ | ⟨rfl, rfl⟩ | ⟨rfl, rfl⟩ | ⟨rfl, rfl⟩ | ⟨rfl, rfl⟩
                    · obtain ⟨c, k, hr, hf⟩ := fixed .apiServer r1 p1 (hwait (Job.apiServer, r1.err) (by simp)) k1
                      exact ⟨c, k, by rw [h1, hr], hf⟩
                    · obtain ⟨c, k, hr, hf⟩ := fixed .client r2 p2 (hwait (Job.client, r2.err) (by simp)) k2
                      exact ⟨c, k, by rw [h2, hr], hf⟩
                    · obtain ⟨c, k, hr, hf⟩ := fixed .kubeConfig r3 p3 (hwait (Job.kubeConfig, r3.err) (by simp)) k3
                      exact ⟨c, k, by rw [h3, hr], hf⟩
                    · obtain ⟨c, k, hr, hf⟩ := fixed .etcdServer r4 p4 (hwait (Job.etcdServer, r4.err) (by simp)) k4
                      exact ⟨c, k, by rw [h4, hr], hf⟩
                    · obtain ⟨c, k, hr, hf⟩ := fixed .etcdClient r5 p5 (hwait (Job.etcdClient, r5.err) (by simp)) k5
                      exact ⟨c, k, by rw [h5, hr], hf⟩
                  · intro i hi
                    have hlt : i < pkiOptions.MasterCount.toNat := by omega
                    exact peerJobs_slots _ _ _ _ _ _ hpeers i (List.mem_range.mpr hlt)
                      (by simpa using hlt)
                · cases h
        · cases h

/-- When the CA pair decodes, `MasterCount` is not negative and `createCertificate`
succeeds in every job, `CreatePki` returns without an error. -/
theorem CreatePki_of_success (env : Env) (pkiOptions : PkiOptions) (caPair : PkiKeyCertPair)
    (ca : Certificate) (caKey : PrivateKey)
    (hp : pkiOptions.CaPair = some caPair)
    (hc : pemToCertificate env.lib caPair.CertificatePem = .ok ca)
    (hk : pemToKey env.lib caPair.PrivateKeyPem = .ok caKey)
    (hm : 0 ≤ pkiOptions.MasterCount)
    (hjobs : ∀ job, ∃ c k, createCertificate env.lib (env.ambient job)
      (CreatePki.certOpt { pkiOptions with ExtraFQDNs := CreatePki.extraFQDNs pkiOptions }
        ca caKey job) = .returned ⟨some c, some k, none⟩) :
    ∃ run, CreatePki env pkiOptions = .returned run ∧ run.result.err = none := by
  obtain ⟨fqdns, ips, domain, pair, count, size⟩ := pkiOptions
  simp only at hp hm
  subst hp
  obtain ⟨c1, k1, h1⟩ := hjobs .apiServer
  obtain ⟨c2, k2, h2⟩ := hjobs .client
  obtain ⟨c3, k3, h3⟩ := hjobs .kubeConfig
  obtain ⟨c4, k4, h4⟩ := hjobs .etcdServer
  obtain ⟨c5, k5, h5⟩ := hjobs .etcdClient
  obtain ⟨slots, errs, hpeers⟩ := peerJobs_of_success env _ (List.range count.toNat)
    (fun i _ => hjobs (.etcdPeer i)) (List.replicate count.toNat none)
  have herrs := (peerJobs_returned env _ _ _ _ _ hpeers).2.1
  have hwait : groupWait env.finished
      ([(Job.apiServer, none), (Job.client, none), (Job.kubeConfig, none),
        (Job.etcdServer, none), (Job.etcdClient, none)] ++ errs) = none := by
    rw [groupWait_eq_none]
    intro x hx
    rcases List.mem_append.mp hx with hx | hx
    · simp only [List.mem_cons, List.mem_singleton, List.not_mem_nil, or_false] at hx
      rcases hx with rfl | rfl | rfl | rfl | rfl <;> rfl
    · exact herrs x hx
  unfold CreatePki
  simp only [hc, hk, h1, h2, h3, h4, h5, if_neg (not_lt.mpr hm), hpeers, hwait, keyCertPair]
  exact ⟨_, rfl, rfl⟩

/-- When the CA pair decodes, `MasterCount` is not negative, every job draws its serial
number and generates its key, and the library signs with the CA and parses what it
signed, `CreatePki` returns without an error. -/
theorem CreatePki_produces (env : Env) (pkiOptions : PkiOptions) (caPair : PkiKeyCertPair)
    (ca : Certificate) (caKey : PrivateKey)
    (hp : pkiOptions.CaPair = some caPair)
    (hc : pemToCertificate env.lib caPair.CertificatePem = .ok ca)
    (hk : pemToKey env.lib caPair.PrivateKeyPem = .ok caKey)
    (hm : 0 ≤ pkiOptions.MasterCount)
    (hsn : ∀ job, ∃ sn, (env.ambient job).randInt snMax = .ok sn)
    (hkey : ∀ job, ∃ k, (env.ambient job).generateKey pkiOptions.PkiKeySize = .ok k)
    (hlib : ∀ template pub, ∃ der c,
      env.lib.x509CreateCertificate template ca pub caKey = .ok der
        ∧ env.lib.parseCertificate der = .ok c) :
    ∃ run, CreatePki env pkiOptions = .returned run ∧ run.result.err = none := by
  refine CreatePki_of_success env pkiOptions caPair ca caKey hp hc hk hm ?_
  intro job
  obtain ⟨sn, hs⟩ := hsn job
  obtain ⟨k, hg⟩ := hkey job
  obtain ⟨der, c, hx, hparse⟩ := hlib
    { createCertificate.template
        (CreatePki.certOpt { pkiOptions with ExtraFQDNs := CreatePki.extraFQDNs pkiOptions }
          ca caKey job) (env.ambient job).now with SerialNumber := some sn } k.PublicKey
  refine ⟨c, k, createCertificate_of_success _ _ _ sn k ca caKey der c hs ?_ ?_ hx hparse⟩
  · cases job <;> exact hg
  · cases job <;> exact Or.inl ⟨rfl, rfl⟩

/-- The certificate of a job of `CreatePki` is the parse of the DER that
`x509.CreateCertificate` gave, with the CA as parent and signer, for the template of the
options of that job with the drawn serial number. -/
theorem CreatePki_job_signed (env : Env) (pkiOptions : PkiOptions) (ca : Certificate)
    (caKey : PrivateKey) (job : Job) (c : Certificate) (k : PrivateKey)
    (h : createCertificate env.lib (env.ambient job)
      (CreatePki.certOpt pkiOptions ca caKey job) = .returned ⟨some c, some k, none⟩) :
    ∃ sn der,
      env.lib.x509CreateCertificate
          { createCertificate.template (CreatePki.certOpt pkiOptions ca caKey job)
              (env.ambient job).now with SerialNumber := some sn }
          ca k.PublicKey caKey = .ok der
        ∧ env.lib.parseCertificate der = .ok c := by
  obtain ⟨sn, parent, signer, der, -, -, hx, hparse, hleaf, -⟩ :=
    createCertificate_signed _ _ _ _ _ h
  have hca : (CreatePki.certOpt pkiOptions ca caKey job).caCertificate = some ca := by
    cases job <;> rfl
  have hck : (CreatePki.certOpt pkiOptions ca caKey job).caPrivateKey = some caKey := by
    cases job <;> rfl
  obtain ⟨rfl, hs⟩ := hleaf ca hca
  rw [hck] at hs
  cases hs
  exact ⟨sn, der, hx, hparse⟩

/-- The stand-in library signs every template with the CA of the stand-in and parses
what it signed. -/
theorem demoLib_signs (template : Certificate) (pub : PublicKey) :
    ∃ der c, demoEnv.lib.x509CreateCertificate template demoCaCertificate pub demoCaKey = .ok der
      ∧ demoEnv.lib.parseCertificate der = .ok c :=
  ⟨_, _, rfl, rfl⟩

/-- Every job of `demoEnv` draws a serial number. -/
theorem demoEnv_draws (job : Job) : ∃ sn, (demoEnv.ambient job).randInt snMax = .ok sn := by
  cases job <;> exact ⟨_, rfl⟩

/-- Every job of `demoEnv` generates a key of 2048 bits. -/
theorem demoEnv_generates (job : Job) :
    ∃ k, (demoEnv.ambient job).generateKey demoOptions.PkiKeySize = .ok k := by
  cases job <;> exact ⟨demoKey, rfl⟩

/-! ## The claims -/

/-- C1 (the code departs from the claim): `demoZeroKeySize` has a CA pair that decodes
and a `MasterCount` of 2, yet `CreatePki` returns neither an error nor a result on it.
With a key size of 0 the key generation of every job fails, `createCertificate` drops
that error and dereferences the `nil` key, and the call panics. -/
theorem CreatePki_zero_key_size_panics :
    demoZeroKeySize.CaPair = some demoCaPair
      ∧ pemToCertificate demoEnv.lib demoCaPair.CertificatePem = .ok demoCaCertificate
      ∧ pemToKey demoEnv.lib demoCaPair.PrivateKeyPem = .ok demoCaKey
      ∧ 0 ≤ demoZeroKeySize.MasterCount
      ∧ CreatePki demoEnv demoZeroKeySize = .panicked :=
  ⟨rfl, rfl, rfl, by decide, by decide⟩

/-- C2 (the code departs from the claim): for every request and every decoded CA, the
templates that `createCertificate` builds for the jobs `etcdserver` and `etcdclient` of
`CreatePki` both carry `[ServerAuth, ClientAuth]`, as the storage-peer template does,
and not `[ServerAuth]`, respectively `[ClientAuth]`: the branch compares the common
name with `etcdServer` and `etcdClient`, and `CreatePki` passes `etcdserver` and
`etcdclient`. -/
theorem etcd_server_and_client_templates_carry_both_usages (pkiOptions : PkiOptions)
    (caCertificate : Certificate) (caPrivateKey : PrivateKey) (now : Nat) :
    ((createCertificate.template
          (CreatePki.certOpt pkiOptions caCertificate caPrivateKey .etcdServer) now).ExtKeyUsage
          = [ExtKeyUsageServerAuth, ExtKeyUsageClientAuth]
        ∧ (createCertificate.template
          (CreatePki.certOpt pkiOptions caCertificate caPrivateKey .etcdServer) now).ExtKeyUsage
          ≠ [ExtKeyUsageServerAuth])
      ∧ ((createCertificate.template
          (CreatePki.certOpt pkiOptions caCertificate caPrivateKey .etcdClient) now).ExtKeyUsage
          = [ExtKeyUsageServerAuth, ExtKeyUsageClientAuth]
        ∧ (createCertificate.template
          (CreatePki.certOpt pkiOptions caCertificate caPrivateKey .etcdClient) now).ExtKeyUsage
          ≠ [ExtKeyUsageClientAuth]) := by
  rw [etcd_job_template pkiOptions caCertificate caPrivateKey now .etcdServer (Or.inl rfl),
    etcd_job_template pkiOptions caCertificate caPrivateKey now .etcdClient (Or.inr (Or.inl rfl))]
  exact ⟨⟨rfl, by decide⟩, ⟨rfl, by decide⟩⟩

/-- C3: `CreatePki` succeeds when the CA pair decodes, `MasterCount` is not negative,
every job draws its serial number and generates its key, and the library signs with the
CA and parses what it signed.  On every request on which `CreatePki` succeeds, the
etcd-server pair returned holds a certificate that the library signed, with the decoded
CA as parent and signer, on a template that contains `ServerAuth`; the etcd-client pair
one signed on a template that contains `ClientAuth`; and the pair in every slot below
`MasterCount` of the peer slice one signed on a template that contains both. -/
theorem CreatePki_signs_etcd_templates (env : Env) (pkiOptions : PkiOptions) :
    (∀ caPair ca caKey, pkiOptions.CaPair = some caPair →
        pemToCertificate env.lib caPair.CertificatePem = .ok ca →
        pemToKey env.lib caPair.PrivateKeyPem = .ok caKey →
        0 ≤ pkiOptions.MasterCount →
        (∀ job, ∃ sn, (env.ambient job).randInt snMax = .ok sn) →
        (∀ job, ∃ k, (env.ambient job).generateKey pkiOptions.PkiKeySize = .ok k) →
        (∀ template pub, ∃ der c,
          env.lib.x509CreateCertificate template ca pub caKey = .ok der
            ∧ env.lib.parseCertificate der = .ok c) →
        ∃ run, CreatePki env pkiOptions = .returned run ∧ run.result.err = none)
      ∧ ∀ run, CreatePki env pkiOptions = .returned run → run.result.err = none →
          ∃ caPair ca caKey peers,
            pkiOptions.CaPair = some caPair
              ∧ pemToCertificate env.lib caPair.CertificatePem = .ok ca
              ∧ pemToKey env.lib caPair.PrivateKeyPem = .ok caKey
              ∧ run.result.etcdPeers = some peers
              ∧ (∃ template k der c,
                  env.lib.x509CreateCertificate template ca k.PublicKey caKey = .ok der
                    ∧ env.lib.parseCertificate der = .ok c
                    ∧ run.result.etcdServer
                      = some ⟨certificateToPem env.lib c.Raw, privateKeyToPem env.lib k⟩
                    ∧ ExtKeyUsageServerAuth ∈ template.ExtKeyUsage)
              ∧ (∃ template k der c,
                  env.lib.x509CreateCertificate template ca k.PublicKey caKey = .ok der
                    ∧ env.lib.parseCertificate der = .ok c
                    ∧ run.result.etcdClient
                      = some ⟨certificateToPem env.lib c.Raw, privateKeyToPem env.lib k⟩
                    ∧ ExtKeyUsageClientAuth ∈ template.ExtKeyUsage)
              ∧ ∀ i : Nat, (i : Int) < pkiOptions.MasterCount →
                  ∃ template k der c,
                    env.lib.x509CreateCertificate template ca k.PublicKey caKey = .ok der
                      ∧ env.lib.parseCertificate der = .ok c
                      ∧ peers[i]?
                        = some (some ⟨certificateToPem env.lib c.Raw, privateKeyToPem env.lib k⟩)
                      ∧ ExtKeyUsageServerAuth ∈ template.ExtKeyUsage
                      ∧ ExtKeyUsageClientAuth ∈ template.ExtKeyUsage := by
  refine ⟨fun caPair ca caKey hp hc hk hm hsn hkey hlib =>
    CreatePki_produces env pkiOptions caPair ca caKey hp hc hk hm hsn hkey hlib, ?_⟩
  intro run hrun hok
  obtain ⟨caPair, ca, caKey, peers, hp, hc, hk, hpeers, hfixed, hslots⟩ :=
    CreatePki_success env pkiOptions run hrun hok
  have both := etcd_job_template
    { pkiOptions with ExtraFQDNs := CreatePki.extraFQDNs pkiOptions } ca caKey
  refine ⟨caPair, ca, caKey, peers, hp, hc, hk, hpeers, ?_, ?_, ?_⟩
  · obtain ⟨c, k, hjob, hfield⟩ := hfixed .etcdServer run.result.etcdServer (by simp)
    obtain ⟨sn, der, hx, hparse⟩ := CreatePki_job_signed env _ ca caKey _ c k hjob
    refine ⟨_, k, der, c, hx, hparse, hfield, ?_⟩
    show ExtKeyUsageServerAuth ∈ (createCertificate.template _ _).ExtKeyUsage
    rw [both _ _ (Or.inl rfl)]; simp
  · obtain ⟨c, k, hjob, hfield⟩ := hfixed .etcdClient run.result.etcdClient (by simp)
    obtain ⟨sn, der, hx, hparse⟩ := CreatePki_job_signed env _ ca caKey _ c k hjob
    refine ⟨_, k, der, c, hx, hparse, hfield, ?_⟩
    show ExtKeyUsageClientAuth ∈ (createCertificate.template _ _).ExtKeyUsage
    rw [both _ _ (Or.inr (Or.inl rfl))]; simp
  · intro i hi
    obtain ⟨c, k, hjob, hslot⟩ := hslots i hi
    obtain ⟨sn, der, hx, hparse⟩ := CreatePki_job_signed env _ ca caKey _ c k hjob
    refine ⟨_, k, der, c, hx, hparse, hslot, ?_, ?_⟩
    · show ExtKeyUsageServerAuth ∈ (createCertificate.template _ _).ExtKeyUsage
      rw [both _ _ (Or.inr (Or.inr ⟨i, rfl⟩))]; simp
    · show ExtKeyUsageClientAuth ∈ (createCertificate.template _ _).ExtKeyUsage
      rw [both _ _ (Or.inr (Or.inr ⟨i, rfl⟩))]; simp

/-- The theorem of C3 on `demoOptions` in `demoEnv`: the run is produced, it is
`demoRun`, and its etcd pairs come from templates with the usages. -/
theorem CreatePki_signs_etcd_templates_witness :
    (∃ run, CreatePki demoEnv demoOptions = .returned run ∧ run.result.err = none)
      ∧ CreatePki demoEnv demoOptions = .returned demoRun
      ∧ ∃ caPair ca caKey peers,
          demoOptions.CaPair = some caPair
            ∧ pemToCertificate demoEnv.lib caPair.CertificatePem = .ok ca
            ∧ pemToKey demoEnv.lib caPair.PrivateKeyPem = .ok caKey
            ∧ demoRun.result.etcdPeers = some peers
            ∧ (∃ template k der c,
                demoEnv.lib.x509CreateCertificate template ca k.PublicKey caKey = .ok der
                  ∧ demoEnv.lib.parseCertificate der = .ok c
                  ∧ demoRun.result.etcdServer
                    = some ⟨certificateToPem demoEnv.lib c.Raw, privateKeyToPem demoEnv.lib k⟩
                  ∧ ExtKeyUsageServerAuth ∈ template.ExtKeyUsage)
            ∧ (∃ template k der c,
                demoEnv.lib.x509CreateCertificate template ca k.PublicKey caKey = .ok der
                  ∧ demoEnv.lib.parseCertificate der = .ok c
                  ∧ demoRun.result.etcdClient
                    = some ⟨certificateToPem demoEnv.lib c.Raw, privateKeyToPem demoEnv.lib k⟩
                  ∧ ExtKeyUsageClientAuth ∈ template.ExtKeyUsage)
            ∧ ∀ i : Nat, (i : Int) < demoOptions.MasterCount →
                ∃ template k der c,
                  demoEnv.lib.x509CreateCertificate template ca k.PublicKey caKey = .ok der
                    ∧ demoEnv.lib.parseCertificate der = .ok c
                    ∧ peers[i]?
                      = some (some ⟨certificateToPem demoEnv.lib c.Raw,
                          privateKeyToPem demoEnv.lib k⟩)
                    ∧ ExtKeyUsageServerAuth ∈ template.ExtKeyUsage
                    ∧ ExtKeyUsageClientAuth ∈ template.ExtKeyUsage :=
  ⟨(CreatePki_signs_etcd_templates demoEnv demoOptions).1 demoCaPair demoCaCertificate demoCaKey
      rfl rfl rfl (by decide) demoEnv_draws demoEnv_generates demoLib_signs,
    rfl,
    (CreatePki_signs_etcd_templates demoEnv demoOptions).2 demoRun rfl rfl⟩

/-- C4: `CreatePki` succeeds when the CA pair decodes, `MasterCount` is not negative,
every job draws its serial number and generates its key, and the library signs with the
CA and parses what it signed.  On every request on which `CreatePki` succeeds, whatever
its extra FQDNs and its cluster domain, the apiserver pair returned holds a certificate
that the library signed, with the decoded CA as parent and signer, on a template whose
DNS names contain every extra FQDN of the caller and the seven `kubernetes` names, whose
extended key usage is exactly `[ServerAuth]`, and whose IP addresses are the extra IPs of
the caller. -/
theorem CreatePki_signs_apiserver_template (env : Env) (pkiOptions : PkiOptions) :
    (∀ caPair ca caKey, pkiOptions.CaPair = some caPair →
        pemToCertificate env.lib caPair.CertificatePem = .ok ca →
        pemToKey env.lib caPair.PrivateKeyPem = .ok caKey →
        0 ≤ pkiOptions.MasterCount →
        (∀ job, ∃ sn, (env.ambient job).randInt snMax = .ok sn) →
        (∀ job, ∃ k, (env.ambient job).generateKey pkiOptions.PkiKeySize = .ok k) →
        (∀ template pub, ∃ der c,
          env.lib.x509CreateCertificate template ca pub caKey = .ok der
            ∧ env.lib.parseCertificate der = .ok c) →
        ∃ run, CreatePki env pkiOptions = .returned run ∧ run.result.err = none)
      ∧ ∀ run, CreatePki env pkiOptions = .returned run → run.result.err = none →
          ∃ caPair ca caKey template k der c,
            pkiOptions.CaPair = some caPair
              ∧ pemToCertificate env.lib caPair.CertificatePem = .ok ca
              ∧ pemToKey env.lib caPair.PrivateKeyPem = .ok caKey
              ∧ env.lib.x509CreateCertificate template ca k.PublicKey caKey = .ok der
              ∧ env.lib.parseCertificate der = .ok c
              ∧ run.result.apiServer
                = some ⟨certificateToPem env.lib c.Raw, privateKeyToPem env.lib k⟩
              ∧ (∀ fqdn ∈ pkiOptions.ExtraFQDNs, fqdn ∈ template.DNSNames)
              ∧ (∀ name ∈ ["kubernetes", "kubernetes.default", "kubernetes.default.svc",
                    "kubernetes.default.svc." ++ pkiOptions.ClusterDomain,
                    "kubernetes.kube-system", "kubernetes.kube-system.svc",
                    "kubernetes.kube-system.svc." ++ pkiOptions.ClusterDomain],
                  name ∈ template.DNSNames)
              ∧ template.ExtKeyUsage = [ExtKeyUsageServerAuth]
              ∧ template.IPAddresses = pkiOptions.ExtraIPs := by
  refine ⟨fun caPair ca caKey hp hc hk hm hsn hkey hlib =>
    CreatePki_produces env pkiOptions caPair ca caKey hp hc hk hm hsn hkey hlib, ?_⟩
  intro run hrun hok
  obtain ⟨caPair, ca, caKey, peers, hp, hc, hk, -, hfixed, -⟩ :=
    CreatePki_success env pkiOptions run hrun hok
  obtain ⟨c, k, hjob, hfield⟩ := hfixed .apiServer run.result.apiServer (by simp)
  obtain ⟨sn, der, hx, hparse⟩ := CreatePki_job_signed env _ ca caKey _ c k hjob
  obtain ⟨heku, hip, hdns⟩ := template_of_server
    (CreatePki.certOpt { pkiOptions with ExtraFQDNs := CreatePki.extraFQDNs pkiOptions }
      ca caKey .apiServer) (env.ambient .apiServer).now ca rfl rfl rfl
  refine ⟨caPair, ca, caKey, _, k, der, c, hp, hc, hk, hx, hparse, hfield, ?_, ?_, heku, hip⟩
  · intro fqdn h
    show fqdn ∈ (createCertificate.template _ _).DNSNames
    rw [hdns]
    simp only [CreatePki.certOpt, CreatePki.extraFQDNs, List.mem_append]
    simp [h]
  · intro name h
    show name ∈ (createCertificate.template _ _).DNSNames
    rw [hdns]
    simp only [CreatePki.certOpt, CreatePki.extraFQDNs]
    simp only [List.mem_cons, List.mem_singleton, List.not_mem_nil, or_false] at h
    simp only [List.mem_append, List.mem_singleton]
    tauto

/-- The theorem of C4 on `demoOptions` in `demoEnv`: the run is produced, it is
`demoRun`, and its apiserver pair comes from a template with the names. -/
theorem CreatePki_signs_apiserver_template_witness :
    (∃ run, CreatePki demoEnv demoOptions = .returned run ∧ run.result.err = none)
      ∧ CreatePki demoEnv demoOptions = .returned demoRun
      ∧ ∃ caPair ca caKey template k der c,
          demoOptions.CaPair = some caPair
            ∧ pemToCertificate demoEnv.lib caPair.CertificatePem = .ok ca
            ∧ pemToKey demoEnv.lib caPair.PrivateKeyPem = .ok caKey
            ∧ demoEnv.lib.x509CreateCertificate template ca k.PublicKey caKey = .ok der
            ∧ demoEnv.lib.parseCertificate der = .ok c
            ∧ demoRun.result.apiServer
              = some ⟨certificateToPem demoEnv.lib c.Raw, privateKeyToPem demoEnv.lib k⟩
            ∧ (∀ fqdn ∈ demoOptions.ExtraFQDNs, fqdn ∈ template.DNSNames)
            ∧ (∀ name ∈ ["kubernetes", "kubernetes.default", "kubernetes.default.svc",
                  "kubernetes.default.svc." ++ demoOptions.ClusterDomain,
                  "kubernetes.kube-system", "kubernetes.kube-system.svc",
                  "kubernetes.kube-system.svc." ++ demoOptions.ClusterDomain],
                name ∈ template.DNSNames)
            ∧ template.ExtKeyUsage = [ExtKeyUsageServerAuth]
            ∧ template.IPAddresses = demoOptions.ExtraIPs :=
  ⟨(CreatePki_signs_apiserver_template demoEnv demoOptions).1 demoCaPair demoCaCertificate
      demoCaKey rfl rfl rfl (by decide) demoEnv_draws demoEnv_generates demoLib_signs,
    rfl,
    (CreatePki_signs_apiserver_template demoEnv demoOptions).2 demoRun rfl rfl⟩

/-- C5: when the CA certificate PEM fails to decode, or it decodes and the CA key PEM
fails to decode, `CreatePki` returns that decode error, `nil` for the five pairs and
for the peer slice, and has made no call of `createCertificate`. -/
theorem CreatePki_decode_failure (env : Env) (pkiOptions : PkiOptions)
    (caPair : PkiKeyCertPair) (err : Error)
    (hp : pkiOptions.CaPair = some caPair)
    (hdec : pemToCertificate env.lib caPair.CertificatePem = .error err
      ∨ ∃ ca, pemToCertificate env.lib caPair.CertificatePem = .ok ca
          ∧ pemToKey env.lib caPair.PrivateKeyPem = .error err) :
    ∃ run, CreatePki env pkiOptions = .returned run
      ∧ run.calls = []
      ∧ run.result.err = some err
      ∧ run.result.apiServer = none ∧ run.result.client = none
      ∧ run.result.kubeConfig = none ∧ run.result.etcdServer = none
      ∧ run.result.etcdClient = none ∧ run.result.etcdPeers = none := by
  refine ⟨{ calls := [], result := .failed err }, ?_, rfl, rfl, rfl, rfl, rfl, rfl, rfl, rfl⟩
  unfold CreatePki
  rcases hdec with hc | ⟨ca, hc, hk⟩
  · simp only [hp, hc]
  · simp only [hp, hc, hk]

/-- The theorem of C5 on a corrupted CA certificate and on a corrupted CA key. -/
theorem CreatePki_decode_failure_witness :
    (∃ run, CreatePki demoEnv demoCorruptCert = .returned run ∧ run.calls = []
        ∧ run.result.err = some "The raw pem is not a valid PEM formatted block"
        ∧ run.result.apiServer = none ∧ run.result.client = none
        ∧ run.result.kubeConfig = none ∧ run.result.etcdServer = none
        ∧ run.result.etcdClient = none ∧ run.result.etcdPeers = none)
      ∧ (∃ run, CreatePki demoEnv demoCorruptKey = .returned run ∧ run.calls = []
        ∧ run.result.err = some "The raw pem is not a valid PEM formatted block"
        ∧ run.result.apiServer = none ∧ run.result.client = none
        ∧ run.result.kubeConfig = none ∧ run.result.etcdServer = none
        ∧ run.result.etcdClient = none ∧ run.result.etcdPeers = none) :=
  ⟨CreatePki_decode_failure demoEnv demoCorruptCert _ _ rfl (Or.inl rfl),
    CreatePki_decode_failure demoEnv demoCorruptKey _ _ rfl (Or.inr ⟨demoCaCertificate, rfl, rfl⟩)⟩

/-- C6 (the code departs from the claim): on `demoOnePeer`, whose CA pair decodes and
whose `MasterCount` is 1, in surroundings where the serial-number draw of storage peer 0
fails, `createCertificate` returns that error to the peer job with a `nil` certificate
and key, and `CreatePki` does not return an error: the job dereferences the `nil`
certificate to fill its slot, and the call panics. -/
theorem CreatePki_peer_error_panics_on_demo :
    demoOnePeer.CaPair = some demoCaPair
      ∧ pemToCertificate demoEnvPeerFails.lib demoCaPair.CertificatePem = .ok demoCaCertificate
      ∧ pemToKey demoEnvPeerFails.lib demoCaPair.PrivateKeyPem = .ok demoCaKey
      ∧ 1 ≤ demoOnePeer.MasterCount
      ∧ createCertificate demoEnvPeerFails.lib (demoEnvPeerFails.ambient (.etcdPeer 0))
          (CreatePki.certOpt { demoOnePeer with ExtraFQDNs := CreatePki.extraFQDNs demoOnePeer }
            demoCaCertificate demoCaKey (.etcdPeer 0))
          = .returned ⟨none, none, some "read /dev/urandom: input/output error"⟩
      ∧ CreatePki demoEnvPeerFails demoOnePeer = .panicked :=
  ⟨rfl, rfl, rfl, by decide, rfl, by decide⟩

/-- C7 (the code departs from the claim): for the CA request of key size 0 the serial
number is drawn, key generation fails, and `createCertificate` returns no error: the
error of `rsa.GenerateKey` is dropped, the `nil` key is dereferenced, and the call
panics. -/
theorem createCertificate_drops_keygen_error :
    (demoAmbient 1 demoCaKey).randInt snMax = .ok 1
      ∧ (demoAmbient 1 demoCaKey).generateKey
          (CreatePkiKeyCertPair.certOpt { CommonName := "ca", KeySize := 0 }).keySize
          = .error "crypto/rsa: too few primes of given length to generate an RSA key"
      ∧ createCertificate demoLib (demoAmbient 1 demoCaKey)
          (CreatePkiKeyCertPair.certOpt { CommonName := "ca", KeySize := 0 }) = .panicked :=
  ⟨rfl, rfl, by decide⟩

/-- C8: once the serial number is drawn and the key generated, `createCertificate`
hands one template to `x509.CreateCertificate` and returns the certificate parsed from
what it gave, with the generated key, whenever signing and parsing succeed; every
certificate it returns comes from that call.  When an issuer certificate is present (a
leaf) the template has key usage `KeyEncipherment | DigitalSignature` and `IsCA = false`,
and parent and signer are the issuer certificate and key.  When the issuer certificate
is `nil` (the CA case) the template has key usage
`KeyEncipherment | DigitalSignature | CertSign`, `IsCA = true`,
`BasicConstraintsValid = true` and no extended key usage, DNS name or IP address, and is
signed by itself with the generated key.  `CreatePkiKeyCertPair` returns the PEM pair of
a certificate signed in the CA case, and every pair it returns is one. -/
theorem createCertificate_signs_template_of_kind (lib : Lib) (amb : Ambient) :
    (∀ (options : certOptions) (sn : Nat) (key : PrivateKey),
        amb.randInt snMax = .ok sn → amb.generateKey options.keySize = .ok key →
        (options.caCertificate ≠ none → options.caPrivateKey ≠ none) →
        ∃ template parent signer,
          (∀ der c, lib.x509CreateCertificate template parent key.PublicKey signer = .ok der →
              lib.parseCertificate der = .ok c →
              createCertificate lib amb options = .returned ⟨some c, some key, none⟩)
            ∧ (∀ c k, createCertificate lib amb options = .returned ⟨some c, some k, none⟩ →
              k = key ∧ ∃ der,
                lib.x509CreateCertificate template parent key.PublicKey signer = .ok der
                  ∧ lib.parseCertificate der = .ok c)
            ∧ (options.caCertificate ≠ none →
              template.KeyUsage = KeyUsageKeyEncipherment ||| KeyUsageDigitalSignature
                ∧ template.IsCA = false
                ∧ options.caCertificate = some parent
                ∧ options.caPrivateKey = some signer)
            ∧ (options.caCertificate = none →
              template.KeyUsage
                  = KeyUsageKeyEncipherment ||| KeyUsageDigitalSignature ||| KeyUsageCertSign
                ∧ template.IsCA = true
                ∧ template.BasicConstraintsValid = true
                ∧ template.ExtKeyUsage = []
                ∧ template.DNSNames = []
                ∧ template.IPAddresses = []
                ∧ parent = template
                ∧ signer = key))
      ∧ ∀ (caOptions : PkiKeyCertPairOptions) (sn : Nat) (key : PrivateKey),
          amb.randInt snMax = .ok sn → amb.generateKey caOptions.KeySize = .ok key →
          ∃ template,
            template.KeyUsage
                = KeyUsageKeyEncipherment ||| KeyUsageDigitalSignature ||| KeyUsageCertSign
              ∧ template.IsCA = true
              ∧ template.BasicConstraintsValid = true
              ∧ template.ExtKeyUsage = []
              ∧ template.DNSNames = []
              ∧ template.IPAddresses = []
              ∧ (∀ der c, lib.x509CreateCertificate template template key.PublicKey key = .ok der →
                  lib.parseCertificate der = .ok c →
                  CreatePkiKeyCertPair lib amb caOptions
                    = .returned (some ⟨certificateToPem lib c.Raw, privateKeyToPem lib key⟩, none))
              ∧ ∀ pair, CreatePkiKeyCertPair lib amb caOptions = .returned (some pair, none) →
                  ∃ der c, lib.x509CreateCertificate template template key.PublicKey key = .ok der
                    ∧ lib.parseCertificate der = .ok c
                    ∧ pair = ⟨certificateToPem lib c.Raw, privateKeyToPem lib key⟩ := by
  constructor
  · intro options sn key hsn hkey hsigner
    cases hca : options.caCertificate with
    | none =>
      obtain ⟨h1, h2, h3, h4, h5, h6⟩ := template_of_ca options amb.now hca
      refine ⟨{ createCertificate.template options amb.now with SerialNumber := some sn },
        { createCertificate.template options amb.now with SerialNumber := some sn }, key,
        ?_, ?_, fun h => absurd rfl h, fun _ => ⟨h1, h2, h3, h4, h5, h6, rfl, rfl⟩⟩
      · intro der c hx hp
        exact createCertificate_of_success lib amb options sn key _ key der c hsn hkey
          (Or.inr ⟨hca, rfl, rfl⟩) hx hp
      · intro c k hret
        obtain ⟨sn', parent, signer, der, hs', hk', hx, hp, -, hself⟩ :=
          createCertificate_signed lib amb options c k hret
        rw [hsn] at hs'
        rw [hkey] at hk'
        cases hs'
        cases hk'
        obtain ⟨rfl, rfl⟩ := hself hca
        exact ⟨rfl, der, hx, hp⟩
    | some ca =>
      obtain ⟨signer, hck⟩ := Option.ne_none_iff_exists'.mp (hsigner (by simp [hca]))
      obtain ⟨h1, h2, -⟩ := template_of_leaf options amb.now ca hca
      refine ⟨{ createCertificate.template options amb.now with SerialNumber := some sn },
        ca, signer, ?_, ?_, fun _ => ⟨h1, h2, rfl, hck⟩, fun h => by cases h⟩
      · intro der c hx hp
        exact createCertificate_of_success lib amb options sn key ca signer der c hsn hkey
          (Or.inl ⟨hca, hck⟩) hx hp
      · intro c k hret
        obtain ⟨sn', parent, signer', der, hs', hk', hx, hp, hleaf, -⟩ :=
          createCertificate_signed lib amb options c k hret
        rw [hsn] at hs'
        rw [hkey] at hk'
        cases hs'
        cases hk'
        obtain ⟨rfl, hsig⟩ := hleaf ca hca
        rw [hck] at hsig
        cases hsig
        exact ⟨rfl, der, hx, hp⟩
  · intro caOptions sn key hsn hkey
    obtain ⟨h1, h2, h3, h4, h5, h6⟩ :=
      template_of_ca (CreatePkiKeyCertPair.certOpt caOptions) amb.now rfl
    refine ⟨{ createCertificate.template (CreatePkiKeyCertPair.certOpt caOptions) amb.now with
      SerialNumber := some sn }, h1, h2, h3, h4, h5, h6, ?_, ?_⟩
    · intro der c hx hp
      have hret := createCertificate_of_success lib amb (CreatePkiKeyCertPair.certOpt caOptions)
        sn key _ key der c hsn hkey (Or.inr ⟨rfl, rfl, rfl⟩) hx hp
      unfold CreatePkiKeyCertPair
      simp only [hret, keyCertPair]
    · intro pair hret
      unfold CreatePkiKeyCertPair at hret
      cases hcc : createCertificate lib amb (CreatePkiKeyCertPair.certOpt caOptions) with
      | panicked => simp [hcc] at hret
      | returned r =>
        simp only [hcc] at hret
        cases herr : r.err with
        | some e => simp [herr] at hret
        | none =>
          simp only [herr] at hret
          cases hkp : keyCertPair lib r.certificate r.privateKey with
          | panicked => simp [hkp] at hret
          | returned p =>
            simp only [hkp, Outcome.returned.injEq, Prod.mk.injEq, Option.some.injEq,
              and_true] at hret
            subst hret
            obtain ⟨c, k, hc1, hk1, hpair⟩ := keyCertPair_returned _ _ _ _ hkp
            have hr : r = ⟨some c, some k, none⟩ := by
              cases r
              simp only at herr hc1 hk1
              subst herr hc1 hk1
              rfl
            rw [hr] at hcc
            obtain ⟨sn', parent, signer, der, hs', hk', hx, hp, -, hself⟩ :=
              createCertificate_signed lib amb _ c k hcc
            rw [hsn] at hs'
            cases hs'
            have hkk : Except.ok key = Except.ok k := hkey.symm.trans hk'
            cases hkk
            obtain ⟨rfl, rfl⟩ := hself rfl
            exact ⟨der, c, hx, hp, hpair⟩

/-- The theorem of C8 on the apiserver job of `demoOptions` (a leaf, which is produced)
and on the CA request of `CreatePkiKeyCertPair` (which returns the CA pair of the
stand-in). -/
theorem createCertificate_signs_template_of_kind_witness :
    (∃ template parent signer,
        createCertificate demoLib (demoEnv.ambient .apiServer)
            (CreatePki.certOpt demoOptions demoCaCertificate demoCaKey .apiServer)
            = .returned ⟨some demoApiServerCertificate, some demoKey, none⟩
          ∧ demoLib.x509CreateCertificate template parent demoKey.PublicKey signer
            = .ok demoApiServerCertificate.Raw
          ∧ template.KeyUsage = 5 ∧ template.IsCA = false
          ∧ parent = demoCaCertificate ∧ signer = demoCaKey)
      ∧ ∃ template,
          template.KeyUsage = 37 ∧ template.IsCA = true
            ∧ CreatePkiKeyCertPair demoLib (demoAmbient 1 demoCaKey)
                { CommonName := "ca", KeySize := 2048 } = .returned (some demoCaPair, none)
            ∧ ∃ der c,
                demoLib.x509CreateCertificate template template demoCaKey.PublicKey demoCaKey
                    = .ok der
                  ∧ demoLib.parseCertificate der = .ok c
                  ∧ demoCaPair = ⟨certificateToPem demoLib c.Raw,
                      privateKeyToPem demoLib demoCaKey⟩ := by
  constructor
  · obtain ⟨template, parent, signer, hmake, hfrom, hleaf, -⟩ :=
      (createCertificate_signs_template_of_kind demoLib (demoEnv.ambient .apiServer)).1
        (CreatePki.certOpt demoOptions demoCaCertificate demoCaKey .apiServer) 10 demoKey
        rfl rfl (by decide)
    obtain ⟨hku, hca, hparent, hsigner⟩ := hleaf (by decide)
    obtain ⟨-, der, hx, hp⟩ := hfrom demoApiServerCertificate demoKey rfl
    have hraw := demoParseCertificate_raw der _ hp
    refine ⟨template, parent, signer, rfl, ?_, hku, hca, ?_, ?_⟩
    · rw [hx, ← hraw]
    · cases hparent; rfl
    · cases hsigner; rfl
  · obtain ⟨template, hku, hca, -, -, -, -, -, hfrom⟩ :=
      (createCertificate_signs_template_of_kind demoLib (demoAmbient 1 demoCaKey)).2
        { CommonName := "ca", KeySize := 2048 } 1 demoCaKey rfl rfl
    exact ⟨template, hku, hca, rfl, hfrom demoCaPair rfl⟩

/-- C9: for a certificate `c` and a key `k` that `createCertificate` returned,
`pemToCertificate (certificateToPem c.Raw)` returns `c` and
`pemToKey (privateKeyToPem k)` returns `k`.  The standard library is assumed to do its
part: a parsed certificate keeps its DER in `Raw`, `pem.Decode` gives back the block
that `pem.Encode` wrote for the two texts, and the PKCS#1 encoding of `k` parses to `k`. -/
theorem pem_round_trip (lib : Lib) (amb : Ambient) (options : certOptions)
    (c : Certificate) (k : PrivateKey)
    (hrun : createCertificate lib amb options = .returned ⟨some c, some k, none⟩)
    (hraw : ∀ der parsed, lib.parseCertificate der = .ok parsed → parsed.Raw = der)
    (hpemC : (lib.pemDecode (lib.pemEncode { Type_ := "CERTIFICATE", Bytes := c.Raw })).1
      = some { Type_ := "CERTIFICATE", Bytes := c.Raw })
    (hpemK : (lib.pemDecode (lib.pemEncode
        { Type_ := "RSA PRIVATE KEY", Bytes := lib.marshalPKCS1PrivateKey k })).1
      = some { Type_ := "RSA PRIVATE KEY", Bytes := lib.marshalPKCS1PrivateKey k })
    (hkey : lib.parsePKCS1PrivateKey (lib.marshalPKCS1PrivateKey k) = .ok k) :
    pemToCertificate lib (certificateToPem lib c.Raw) = .ok c
      ∧ pemToKey lib (privateKeyToPem lib k) = .ok k := by
  rcases createCertificate_returned lib amb options _ hrun with ⟨e, he⟩ | ⟨c', k', der, hr, hparse, -⟩
  · cases he
  · cases hr
    have hder : c.Raw = der := hraw der c hparse
    constructor
    · unfold pemToCertificate certificateToPem
      rw [hpemC]
      simp only
      rw [hder, hparse]
    · unfold pemToKey privateKeyToPem
      rw [hpemK]
      simp only
      exact hkey

/-- The theorem of C9 on the certificate and key that the apiserver job of
`demoOptions` gets from `createCertificate`. -/
theorem pem_round_trip_witness :
    createCertificate demoLib (demoEnv.ambient .apiServer)
        (CreatePki.certOpt demoOptions demoCaCertificate demoCaKey .apiServer)
        = .returned ⟨some demoApiServerCertificate, some demoKey, none⟩
      ∧ pemToCertificate demoLib (certificateToPem demoLib demoApiServerCertificate.Raw)
        = .ok demoApiServerCertificate
      ∧ pemToKey demoLib (privateKeyToPem demoLib demoKey) = .ok demoKey :=
  ⟨rfl, pem_round_trip demoLib (demoEnv.ambient .apiServer)
    (CreatePki.certOpt demoOptions demoCaCertificate demoCaKey .apiServer)
    demoApiServerCertificate demoKey rfl demoParseCertificate_raw rfl rfl rfl⟩

/-- C10 (as written, refuted): `pemToCertificate` returns the CA certificate for a text
whose only block has the type `RSA PRIVATE KEY`, and for a text in which a second block
follows the first; `pemToKey` returns the CA key for a text whose only block has the
type `CERTIFICATE`. -/
theorem pem_decoders_accept_other_types_and_trailing_text :
    (demoLib.pemDecode demoMislabelledCert
          = (some { Type_ := "RSA PRIVATE KEY", Bytes := demoCaDer }, "")
        ∧ pemToCertificate demoLib demoMislabelledCert = .ok demoCaCertificate)
      ∧ (demoLib.pemDecode demoBundle
          = (some { Type_ := "CERTIFICATE", Bytes := demoCaDer },
              "-----BEGIN CERTIFICATE-----\n0a05010001bb07\n-----END CERTIFICATE-----\n")
        ∧ pemToCertificate demoLib demoBundle = .ok demoCaCertificate)
      ∧ (demoLib.pemDecode demoMislabelledKey
          = (some { Type_ := "CERTIFICATE", Bytes := [247, 5, 173, 13, 19] }, "")
        ∧ pemToKey demoLib demoMislabelledKey = .ok demoCaKey) :=
  ⟨⟨rfl, rfl⟩, ⟨rfl, rfl⟩, ⟨rfl, rfl⟩⟩

/-- C10 (amended): `pemToCertificate` and `pemToKey` return the error `The raw pem is
not a valid PEM formatted block` when `pem.Decode` finds no block in the text;
otherwise they return what `x509.ParseCertificate`, respectively
`x509.ParsePKCS1PrivateKey`, returns on the payload of the first block, whatever the
type of that block and whatever follows it: they fail exactly when no block is found or
the payload of the first block fails to parse. -/
theorem pem_decoders_result (lib : Lib) (raw : String) :
    ((lib.pemDecode raw).1 = none →
        pemToCertificate lib raw = .error "The raw pem is not a valid PEM formatted block"
        ∧ pemToKey lib raw = .error "The raw pem is not a valid PEM formatted block")
      ∧ (∀ block, (lib.pemDecode raw).1 = some block →
        pemToCertificate lib raw = lib.parseCertificate block.Bytes
        ∧ pemToKey lib raw = lib.parsePKCS1PrivateKey block.Bytes)
      ∧ ((∃ err, pemToCertificate lib raw = .error err) ↔
          ((lib.pemDecode raw).1 = none
            ∨ ∃ block err, (lib.pemDecode raw).1 = some block
                ∧ lib.parseCertificate block.Bytes = .error err))
      ∧ ((∃ err, pemToKey lib raw = .error err) ↔
          ((lib.pemDecode raw).1 = none
            ∨ ∃ block err, (lib.pemDecode raw).1 = some block
                ∧ lib.parsePKCS1PrivateKey block.Bytes = .error err)) := by
  unfold pemToCertificate pemToKey
  cases (lib.pemDecode raw).1 with
  | none => simp
  | some block => simp

end Pki
